import Mathlib

/-!
Verification of the Blend Optimizer Engine (pokerbushido/blend-optimizer-web)
against its natural-language specification.

The Python sources under `src/backend/optimizer_core/` and
`src/backend/app/core/inventory_service.py` are shallowly embedded here:
Python floats become `ℚ` (all arithmetic in the verified scenarios is exact
decimal arithmetic, so `ℚ` is a faithful model), Python strings become
`List Char`, `None`-able values become `Option`, Python lists become `List`,
and the one source of nondeterminism (`random.shuffle` in diversification
strategy 4 of `BlendOptimizer._generate_combinations_diverse`) becomes two
explicit list parameters holding the shuffle outcomes.
-/

attribute [local semireducible] Rat.mul Rat.add Rat.sub Rat.inv

namespace BlendOpt

/-- Python strings are modelled as lists of characters. -/
abbrev Str := List Char

/-- Python `str.upper()` (per-character uppercase). -/
def strUpper (s : Str) : Str := s.map Char.toUpper

/-- Python `str.lower()` (per-character lowercase). -/
def strLower (s : Str) : Str := s.map Char.toLower

/-- Python `str.strip()`: drop leading and trailing whitespace. -/
def strStrip (s : Str) : Str :=
  ((s.dropWhile Char.isWhitespace).reverse.dropWhile Char.isWhitespace).reverse

/-- Python `str.split('|')`: split on a separator character, keeping empty
    fields (`"".split('|') == ['']`). -/
def splitPipe : Str → List Str
  | [] => [[]]
  | c :: rest =>
    let r := splitPipe rest
    if c = '|' then [] :: r
    else (c :: r.headI) :: r.tail

/-- Lexicographic comparison of two strings by character code, as Python
    compares `str` values (used for `sorted(...)` over lot codes). -/
def strLE : Str → Str → Bool
  | [], _ => true
  | _ :: _, [] => false
  | a :: as, b :: bs =>
    if a.val < b.val then true
    else if b.val < a.val then false
    else strLE as bs

/-- Python `s.replace(pat, "")` for a nonempty pattern: remove all
    non-overlapping occurrences left to right.  The first argument is fuel
    (instantiated with the length of the string, which bounds the number of
    steps). -/
def replaceAllGo (pat : Str) : ℕ → Str → Str
  | 0, s => s
  | _ + 1, [] => []
  | n + 1, c :: rest =>
    if pat.isPrefixOf (c :: rest) then replaceAllGo pat n ((c :: rest).drop pat.length)
    else c :: replaceAllGo pat n rest

/-- Python `s.replace(pat, "")`. -/
def replaceAll (pat : Str) (s : Str) : Str :=
  if pat.isEmpty then s else replaceAllGo pat s.length s

/-- Sum of the second components of an allocation list (`sum(kg for _, kg in lots)`). -/
def sumKg {α : Type} (l : List (α × ℚ)) : ℚ := (l.map (·.2)).sum

/-- Python `min` on two numbers (first argument on ties), in a form that
    evaluates by kernel reduction. -/
def qmin (a b : ℚ) : ℚ := if a ≤ b then a else b

/-- Python `max` on two numbers, in a form that evaluates by kernel
    reduction. -/
def qmax (a b : ℚ) : ℚ := if b ≤ a then a else b

/-- Python `abs`, in a form that evaluates by kernel reduction. -/
def qabs (a : ℚ) : ℚ := if a < 0 then -a else a

/-- Insert `x` into a `le`-sorted list after every element that is
    `le`-below-or-equal to it (the placement that makes insertion sort
    stable). -/
def insertLE {α : Type} (le : α → α → Bool) (x : α) : List α → List α
  | [] => [x]
  | y :: ys => if le y x then y :: insertLE le x ys else x :: y :: ys

/-- Stable sort by a total boolean `≤`, modelling Python's stable
    `sorted`/`list.sort`: equal-keyed elements keep their input order.
    (Structurally recursive so that proofs can evaluate it.) -/
def stableSort {α : Type} (le : α → α → Bool) (l : List α) : List α :=
  l.foldl (fun acc x => insertLE le x acc) []

/-- Python `pat in s` on strings: contiguous-substring containment. -/
def isSubstring (pat s : Str) : Bool := s.tails.any (fun t => pat.isPrefixOf t)

/-- Python truthiness of an optional number: `None` and `0` are falsy. -/
def truthy (o : Option ℚ) : Bool :=
  match o with
  | none => false
  | some x => x ≠ 0

/-!  ## Configuration constants (`optimizer_core/config.py`)  -/

/-- `OPERATIONAL_LIMITS['min_lot_usage_kg']` -/
def MIN_LOT_USAGE_KG : ℚ := 10
/-- `OPERATIONAL_LIMITS['max_lot_usage_pct']` -/
def MAX_LOT_USAGE_PCT : ℚ := 95
/-- `OPERATIONAL_LIMITS['ideal_lots_per_blend']` -/
def IDEAL_LOTS_PER_BLEND : ℕ := 5
/-- `OPERATIONAL_LIMITS['max_lots_per_blend']` -/
def MAX_LOTS_PER_BLEND : ℕ := 10
/-- `SEARCH_PARAMS['initial_dc_range']` -/
def INITIAL_DC_RANGE : ℚ := 15
/-- `SEARCH_PARAMS['max_combinations']` -/
def MAX_COMBINATIONS : ℕ := 25000
/-- `DEFAULT_TOLERANCES['dc_tolerance']` -/
def DC_TOLERANCE_DEFAULT : ℚ := 3
/-- `DEFAULT_TOLERANCES['fp_tolerance']` -/
def FP_TOLERANCE_DEFAULT : ℚ := 5
/-- `DEFAULT_TOLERANCES['duck_tolerance']` -/
def DUCK_TOLERANCE_DEFAULT : ℚ := 5
/-- `SCORING_WEIGHTS['dc_target_match']` -/
def W_DC_TARGET_MATCH : ℚ := 1000
/-- `SCORING_WEIGHTS['fp_target_match']` -/
def W_FP_TARGET_MATCH : ℚ := 800
/-- `SCORING_WEIGHTS['estimated_data_penalty']` -/
def W_ESTIMATED_DATA_PENALTY : ℚ := -100
/-- `SCORING_WEIGHTS['species_optimization_bonus']` -/
def W_SPECIES_OPT_BONUS : ℚ := 50
/-- `SCORING_WEIGHTS['species_mismatch_penalty']` -/
def W_SPECIES_MISMATCH_PENALTY : ℚ := -150
/-- `SCORING_WEIGHTS['dc_overqualification_penalty_weight']` -/
def W_DC_OVERQUAL_WEIGHT : ℚ := 1
/-- `SCORING_WEIGHTS['dc_overqualification_threshold']` -/
def W_DC_OVERQUAL_THRESHOLD : ℚ := 5

/-- Keys of `MATERIAL_STATE_CODES`. -/
def MATERIAL_STATE_KEYS : List Str := [['P'], ['M'], ['S'], ['O']]

/-- Keys of `SPECIES_CODES`. -/
def SPECIES_KEYS : List Str := [['O'], ['A'], ['O', 'A'], ['C']]

/-- `COLOR_CODES` as an association list key ↦ quality rank, in the
    dictionary's insertion order. -/
def COLOR_CODES : List (Str × ℕ) :=
  [(['P', 'W'], 1), (['B', 'P', 'W'], 1), (['N', 'P', 'W'], 2),
   (['B', 'N', 'P', 'W'], 2), (['B'], 3), (['G'], 4), (['R'], 5)]

/-- Membership test in the `COLOR_CODES` dictionary keys. -/
def inColorCodes (s : Str) : Bool := COLOR_CODES.any (fun p => p.1 = s)

/-- The `{state, species, color}` payload of a special article code alias. -/
structure SpecialInfo where
  state : Str
  species : Str
  color : Str
deriving DecidableEq, Repr

/-- `SPECIAL_ARTICLE_CODES`, in dictionary insertion order. -/
def SPECIAL_ARTICLE_CODES : List (Str × SpecialInfo) :=
  [(['P', 'G', 'R'], ⟨['P'], ['O', 'A'], ['G']⟩),
   (['P', 'B', 'R'], ⟨['P'], ['O', 'A'], ['B']⟩)]

/-- `WATER_REPELLENT_RULES['equivalent_treatments']`. -/
def WR_EQUIVALENT_TREATMENTS : List Str := [['G', 'W', 'R'], ['N', 'W', 'R']]

/-!  ## Article-code parser (`optimizer_core/compatibility.py`, `ProductCode`)  -/

/-- A decoded article code (`compatibility.ProductCode`). -/
structure ProductCode where
  raw_code : Str
  group : Option Str := none
  state : Option Str := none
  species : Option Str := none
  color : Option Str := none
  certification : Option Str := none
deriving DecidableEq, Repr

/-- `ProductCode._parse_color_flexible`: exact color, then part before a dot,
    then 3-, 2-, 1-character prefixes, then pass-through. -/
def parseColorFlexible (colorStr : Str) : Option Str :=
  if colorStr = [] then none
  else if inColorCodes colorStr then some colorStr
  else
    let afterDot :=
      if colorStr.contains '.' then
        let base := colorStr.takeWhile (· ≠ '.')
        if inColorCodes base then some base else none
      else none
    match afterDot with
    | some b => some b
    | none =>
      if colorStr.length ≥ 3 ∧ inColorCodes (colorStr.take 3) then some (colorStr.take 3)
      else if colorStr.length ≥ 2 ∧ inColorCodes (colorStr.take 2) then some (colorStr.take 2)
      else if colorStr.length ≥ 1 ∧ inColorCodes (colorStr.take 1) then some (colorStr.take 1)
      else some colorStr

/-- The provisional main field of an article string exactly as
    `ProductCode._parse_code` computes it:
    `parts[1] if len(parts) >= 2 else parts[0]` after splitting on `|`. -/
def mainField (raw : Str) : Str :=
  let parts := splitPipe raw
  if parts.length ≥ 2 then (parts.get? 1).getD [] else parts.headI

/-- The special-code lookup of `ProductCode._parse_code`: special codes are
    iterated in descending key length (a stable sort of the dictionary order)
    and the first key contained in the main field wins. -/
def findSpecialMatch (main : Str) : Option (Str × SpecialInfo) :=
  (stableSort (fun a b => b.1.length ≤ a.1.length) SPECIAL_ARTICLE_CODES).find?
    (fun p => isSubstring p.1 main)

/-- `ProductCode._parse_code` (invoked by `__post_init__`). -/
def parseCode (raw : Str) : ProductCode :=
  let parts := splitPipe raw
  match findSpecialMatch (mainField raw) with
  | some (_, info) =>
    { raw_code := raw
      group := if parts.length ≥ 2 then some parts.headI else none
      state := some info.state
      species := some info.species
      color := some info.color
      certification := if parts.length ≥ 3 then parts.get? 2 else none }
  | none =>
    let withMain : Option (Option Str × Str × Option Str) :=
      if parts.length ≥ 2 then
        some (some parts.headI, (parts.get? 1).getD [],
              if parts.length ≥ 3 then parts.get? 2 else none)
      else if parts.length = 1 then
        some (none, parts.headI, none)
      else none
    match withMain with
    | none => { raw_code := raw }
    | some (group, main, cert) =>
      if main.length ≥ 3 then
        let state := some [main.headI]
        let speciesColor : Str × Option Str :=
          if main.length ≥ 4 ∧ (main.drop 1).take 2 = ['O', 'A'] then
            (['O', 'A'], if main.length > 3 then some (main.drop 3) else none)
          else
            ([(main.get? 1).getD ' '], if main.length > 2 then some (main.drop 2) else none)
        let color :=
          match speciesColor.2 with
          | some cp => if cp ≠ [] then parseColorFlexible cp else none
          | none => none
        { raw_code := raw, group := group, state := state,
          species := some speciesColor.1, color := color, certification := cert }
      else
        { raw_code := raw, group := group, certification := cert }

/-- `compatibility.parse_product_code`. -/
def parse_product_code (code : Str) : ProductCode := parseCode code

/-- `ProductCode.is_valid`. -/
def ProductCode.isValidCode (p : ProductCode) : Bool :=
  match p.state, p.species, p.color with
  | some st, some sp, some co =>
    MATERIAL_STATE_KEYS.contains st ∧ SPECIES_KEYS.contains sp ∧
      COLOR_CODES.any (fun q => q.1 = co)
  | _, _, _ => false

/-- `ProductCode.is_water_repellent`. -/
def ProductCode.isWR (p : ProductCode) : Bool :=
  match p.certification with
  | none => false
  | some c => WR_EQUIVALENT_TREATMENTS.contains c

/-!  ## Lab-notes parsing (`optimizer_core/lab_notes_parser.py`)

Only the fill-power extraction and the estimate record are needed by the
claims; the DC/class regex extractors enter the imputation chain solely
through the `LabEstimates` values they produce, so the imputation theorems
quantify over those values.  -/

/-- `LabEstimates` (the numeric fields used by the loader). -/
structure LabEstimates where
  dc_estimate : Option ℚ := none
  dc_range : Option (ℚ × ℚ) := none
  fp_estimate : Option ℚ := none
  oe_class : Option ℕ := none
  oe_estimate : Option ℚ := none
  broken_estimate : Option ℚ := none
  confidence : ℚ := 0
deriving DecidableEq, Repr

/-- `LabNotesParser.FP_QUALITATIVE_MAP`, in dictionary insertion order. -/
def FP_QUALITATIVE_MAP : List (Str × ℚ) :=
  [("molto alto".toList, 800), ("alto".toList, 750),
   ("medio-alto".toList, 700), ("medio alto".toList, 700),
   ("medio".toList, 650), ("medio-basso".toList, 600),
   ("medio basso".toList, 600), ("basso".toList, 550),
   ("molto basso".toList, 500), ("buona resa".toList, 680),
   ("ottima resa".toList, 720)]

/-- The regex `fp\s+.*{indicator}` of `_extract_fill_power`, searched
    anywhere in the note: some occurrence of `fp` is followed immediately by a
    whitespace character after which the indicator occurs.  (`.` not matching
    a newline is immaterial: whitespace is itself matched by `.*`, so the
    pattern is equivalent to this containment test on newline-free notes, and
    every note in this development is newline-free.) -/
def fpRegexMatches (ind note : Str) : Bool :=
  note.tails.any (fun t =>
    match t with
    | 'f' :: 'p' :: c :: rest => c.isWhitespace ∧ isSubstring ind rest
    | _ => false)

/-- `LabNotesParser._extract_fill_power`: iterate the qualitative map in
    dictionary order; on the first indicator contained in the note, accept its
    value if the `fp`-regex matches, or the indicator is a `resa` phrase, or
    `fp` occurs anywhere; otherwise keep scanning. -/
def extractFillPower (note : Str) : Option ℚ :=
  FP_QUALITATIVE_MAP.firstM (fun p =>
    if isSubstring p.1 note then
      if fpRegexMatches p.1 note then some p.2
      else if isSubstring ("resa".toList) p.1 ∧ isSubstring p.1 note then some p.2
      else if isSubstring ("fp".toList) note then some p.2
      else none
    else none)

/-!  ## Lot data and the loader's imputation chain
     (`optimizer_core/inventory.py`)  -/

/-- `inventory.LotData` (fields are `None`-able exactly as in the dataclass;
    pandas `NaN` never reaches a stored field because the loader coerces it to
    `None`). -/
structure LotData where
  lot_code : Str
  article_code : Str
  product : ProductCode
  dc_real : Option ℚ := none
  fp_real : Option ℚ := none
  duck_real : Option ℚ := none
  other_elements_real : Option ℚ := none
  feather_real : Option ℚ := none
  oxygen_real : Option ℚ := none
  turbidity_real : Option ℚ := none
  total_fibres_real : Option ℚ := none
  broken_real : Option ℚ := none
  landfowl_real : Option ℚ := none
  qty_available : ℚ := 0
  cost_per_kg : Option ℚ := none
  lab_notes : Str := []
  is_estimated : Bool := false
  dc_nominal : Option ℚ := none
  quality_nominal : Option Str := none
  standard_nominal : Option Str := none
  fp_nominal : Option ℚ := none
  dc_was_imputed : Bool := false
  fp_was_imputed : Bool := false
deriving DecidableEq, Repr

/-- `LotData.__post_init__` decodes the article code into `product`. -/
def mkLot (lot_code article_code : Str) : LotData :=
  { lot_code := lot_code, article_code := article_code,
    product := parse_product_code article_code }

/-- `LotData.is_water_repellent`: certification in the article code, or
    `quality_nominal` uppercased and stripped equal to GWR/NWR. -/
def LotData.isWR (l : LotData) : Bool :=
  l.product.isWR ||
    (match l.quality_nominal with
     | none => false
     | some q => WR_EQUIVALENT_TREATMENTS.contains (strStrip (strUpper q)))

/-- `LotData.has_sufficient_data`. -/
def LotData.hasSufficientData (l : LotData) : Bool := l.dc_real ≠ none

/-- Contribution of one optional field to the quality score. -/
def qsTerm (v : Option ℚ) (f : ℚ → ℚ) : ℚ :=
  match v with
  | none => 0
  | some x => f x

/-- `LotData.calculate_quality_score` (higher = uglier = disposal priority). -/
def LotData.qualityScore (l : LotData) : ℚ :=
  qsTerm l.dc_real (fun dc => (100 - dc) * 2) +
  qsTerm l.duck_real (fun d => d * 3 / 2) +
  qsTerm l.other_elements_real (fun oe => oe * 3) +
  qsTerm l.feather_real (fun f => f * 1) +
  qsTerm l.total_fibres_real (fun t => t * 2) +
  qsTerm l.broken_real (fun b => b * 3 / 2) +
  qsTerm l.landfowl_real (fun lf => lf * 2) +
  (if l.is_estimated then -50 else 0)

/-- The lab-estimates value available inside `InventoryManager._row_to_lot`:
    the parser runs only when the stripped note is longer than 5 characters.
    `labEst` stands for `parse_lab_notes(lot.lab_notes)`; the imputation
    theorems quantify over it, which covers the source parser since the lot's
    `lab_notes` field is never modified by imputation. -/
def labGate (labEst : LabEstimates) (l : LotData) : Option LabEstimates :=
  if l.lab_notes ≠ [] ∧ (strStrip l.lab_notes).length > 5 then some labEst else none

/-- CORREZIONE 1 of `_row_to_lot`: impute a missing/zero DC from the lab-note
    estimate (with the OE side effect) or from a positive nominal DC. -/
def imputeDC (labEst : LabEstimates) (l : LotData) : LotData :=
  if l.dc_real = none ∨ l.dc_real = some 0 then
    match labGate labEst l with
    | some est =>
      if truthy est.dc_estimate then
        let l1 := { l with dc_real := est.dc_estimate, dc_was_imputed := true }
        if truthy est.oe_estimate ∧
            (l1.other_elements_real = none ∨ l1.other_elements_real = some 0) then
          { l1 with other_elements_real := est.oe_estimate }
        else l1
      else if truthy l.dc_nominal ∧ l.dc_nominal.getD 0 > 0 then
        { l with dc_real := l.dc_nominal, dc_was_imputed := true }
      else l
    | none =>
      if truthy l.dc_nominal ∧ l.dc_nominal.getD 0 > 0 then
        { l with dc_real := l.dc_nominal, dc_was_imputed := true }
      else l
  else l

/-- CORREZIONE 2 of `_row_to_lot`: the same chain for FP. -/
def imputeFP (labEst : LabEstimates) (l : LotData) : LotData :=
  if l.fp_real = none ∨ l.fp_real = some 0 then
    match labGate labEst l with
    | some est =>
      if truthy est.fp_estimate then
        { l with fp_real := est.fp_estimate, fp_was_imputed := true }
      else if truthy l.fp_nominal ∧ l.fp_nominal.getD 0 > 0 then
        { l with fp_real := l.fp_nominal, fp_was_imputed := true }
      else l
    | none =>
      if truthy l.fp_nominal ∧ l.fp_nominal.getD 0 > 0 then
        { l with fp_real := l.fp_nominal, fp_was_imputed := true }
      else l
  else l

/-- CORREZIONE 3 of `_row_to_lot`: duck articles (`species = 'A'`) with a
    missing or zero duck percentage are 100% duck. -/
def imputeDuckA (l : LotData) : LotData :=
  if l.product.species = some ['A'] ∧ (l.duck_real = none ∨ l.duck_real = some 0) then
    { l with duck_real := some 100 }
  else l

/-- CORREZIONE 4 of `_row_to_lot`: goose articles (`species = 'O'`) with a
    missing duck percentage are pure goose. -/
def imputeDuckO (l : LotData) : LotData :=
  if l.product.species = some ['O'] ∧ l.duck_real = none then
    { l with duck_real := some 0 }
  else l

/-- CORREZIONE 5 of `_row_to_lot`: mixed articles (`species = 'OA'`) with a
    missing or zero duck percentage are estimated at 50%. -/
def imputeDuckOA (l : LotData) : LotData :=
  if l.product.species = some ['O', 'A'] ∧ (l.duck_real = none ∨ l.duck_real = some 0) then
    { l with duck_real := some 50 }
  else l

/-- CORREZIONI 3–5 of `_row_to_lot` in source order: species defaults for
    `duck_real` (`A` → 100 when missing or zero, `O` → 0 when missing,
    `OA` → 50 when missing or zero). -/
def imputeDuck (l : LotData) : LotData := imputeDuckOA (imputeDuckO (imputeDuckA l))

/-- `LotData._check_estimated_data`: a lot is estimated exactly when its DC
    was imputed. -/
def checkEstimatedData (l : LotData) : LotData :=
  { l with is_estimated := l.dc_was_imputed }

/-- The full imputation chain of `InventoryManager._row_to_lot` (CORREZIONE
    1–5 followed by `_check_estimated_data`), with the lab-note parse result
    passed explicitly. -/
def imputeLot (labEst : LabEstimates) (l : LotData) : LotData :=
  checkEstimatedData (imputeDuck (imputeFP labEst (imputeDC labEst l)))

/-!  ## Requirements and blend solutions (`optimizer_core/optimizer.py`)  -/

/-- The requirements dictionary: every key the engine reads, as an optional
    field (`requirements.get(k)`); `water_repellent` is read only for
    truthiness. -/
structure Requirements where
  dc_target : Option ℚ := none
  fp_target : Option ℚ := none
  duck_target : Option ℚ := none
  max_oe : Option ℚ := none
  dc_tolerance : Option ℚ := none
  fp_tolerance : Option ℚ := none
  duck_tolerance : Option ℚ := none
  quantity_kg : Option ℚ := none
  max_lots : Option ℕ := none
  species : Option Str := none
  color : Option Str := none
  water_repellent : Bool := false
deriving DecidableEq, Repr

/-- `BlendSolution` after `__post_init__` (metrics plus conformity flags);
    the `score_breakdown` map is omitted — it only records the score terms
    that are already summed into `score`. -/
structure BlendSolution where
  lots : List (LotData × ℚ)
  requirements : Requirements
  total_kg : ℚ := 0
  dc_average : ℚ := 0
  fp_average : ℚ := 0
  duck_average : ℚ := 0
  oe_average : ℚ := 0
  feather_average : ℚ := 0
  total_cost : ℚ := 0
  cost_per_kg : ℚ := 0
  score : ℚ := 0
  meets_dc_target : Bool := false
  meets_fp_target : Bool := false
  meets_duck_target : Bool := false
  meets_oe_target : Bool := false
deriving DecidableEq, Repr

/-- Mass of the lots of an allocation whose `field` is present
    (the denominator of a weighted average in `_calculate_metrics`). -/
def presentKg (lots : List (LotData × ℚ)) (field : LotData → Option ℚ) : ℚ :=
  ((lots.filter (fun p => field p.1 ≠ none)).map (·.2)).sum

/-- Mass-weighted sum of `field` over the lots where it is present
    (the numerator of a weighted average in `_calculate_metrics`). -/
def presentWeighted (lots : List (LotData × ℚ)) (field : LotData → Option ℚ) : ℚ :=
  ((lots.filter (fun p => field p.1 ≠ none)).map
    (fun p => (field p.1).getD 0 * p.2)).sum

/-- One weighted average of `_calculate_metrics`: the ratio when the
    denominator is positive, otherwise `0`. -/
def weightedAvg (lots : List (LotData × ℚ)) (field : LotData → Option ℚ) : ℚ :=
  let kgTot := presentKg lots field
  if kgTot > 0 then presentWeighted lots field / kgTot else 0

/-- `BlendSolution._check_conformity` for one target: vacuously met when the
    target is absent. -/
def meetsTol (avg : ℚ) (target : Option ℚ) (tol : ℚ) : Bool :=
  match target with
  | none => true
  | some t => qabs (avg - t) ≤ tol

/-- `BlendSolution.__post_init__`: run `_calculate_metrics` (early return on
    an empty lot list or zero total mass leaves the metric fields at their
    zero defaults) and `_check_conformity`. -/
def mkBlendSolution (lots : List (LotData × ℚ)) (req : Requirements) : BlendSolution :=
  let total := sumKg lots
  let computed := lots ≠ [] ∧ total ≠ 0
  let dcAvg := if computed then weightedAvg lots (·.dc_real) else 0
  let fpAvg := if computed then weightedAvg lots (·.fp_real) else 0
  let duckAvg := if computed then weightedAvg lots (·.duck_real) else 0
  let oeAvg := if computed then weightedAvg lots (·.other_elements_real) else 0
  let featherAvg := if computed then weightedAvg lots (·.feather_real) else 0
  let totalCost :=
    if computed then
      ((lots.filter (fun p => p.1.cost_per_kg ≠ none)).map
        (fun p => (p.1.cost_per_kg).getD 0 * p.2)).sum
    else 0
  { lots := lots
    requirements := req
    total_kg := total
    dc_average := dcAvg
    fp_average := fpAvg
    duck_average := duckAvg
    oe_average := oeAvg
    feather_average := featherAvg
    total_cost := totalCost
    cost_per_kg := if computed ∧ total > 0 then totalCost / total else 0
    meets_dc_target := meetsTol dcAvg req.dc_target (req.dc_tolerance.getD DC_TOLERANCE_DEFAULT)
    meets_fp_target := meetsTol fpAvg req.fp_target (req.fp_tolerance.getD FP_TOLERANCE_DEFAULT)
    meets_duck_target :=
      meetsTol duckAvg req.duck_target (req.duck_tolerance.getD DUCK_TOLERANCE_DEFAULT)
    meets_oe_target :=
      match req.max_oe with
      | none => true
      | some m => oeAvg ≤ m }

/-- `BlendSolution.is_valid`: all four conformity flags, at least 90% of the
    requested quantity, and a nonempty lot list. -/
def BlendSolution.isValidSolution (s : BlendSolution) : Bool :=
  let target := s.requirements.quantity_kg.getD 100
  s.meets_dc_target && s.meets_fp_target && s.meets_duck_target && s.meets_oe_target &&
    decide (s.total_kg ≥ target * (9/10)) && decide (s.lots.length > 0)

/-!  ## Allocation solver (`BlendOptimizer._*_allocation`)  -/

/-- Loop body of `_simple_allocation`: in order, take
    `min(1.2·remaining, 0.95·available)`, keep it if at least the 10 kg floor,
    stop when the remaining mass is exhausted. -/
def simpleAllocGo : List LotData → ℚ → List (LotData × ℚ)
  | [], _ => []
  | l :: rest, remaining =>
    if remaining ≤ 0 then []
    else
      let kg := qmin (remaining * (12/10)) (l.qty_available * (95/100))
      if kg ≥ MIN_LOT_USAGE_KG then (l, kg) :: simpleAllocGo rest (remaining - kg)
      else simpleAllocGo rest remaining

/-- `BlendOptimizer._simple_allocation`. -/
def simpleAllocation (lots : List LotData) (targetKg : ℚ) :
    Option (List (LotData × ℚ)) :=
  let allocation := simpleAllocGo lots targetKg
  if sumKg allocation < targetKg * (9/10) then none
  else if allocation = [] then none
  else some allocation

/-- `BlendOptimizer._uniform_allocation`. -/
def uniformAllocation (lots : List LotData) (targetKg : ℚ) :
    Option (List (LotData × ℚ)) :=
  let kgPerLot := targetKg / lots.length
  let allocation := lots.filterMap (fun l =>
    let kg := qmin kgPerLot (l.qty_available * (95/100))
    if kg ≥ MIN_LOT_USAGE_KG then some (l, kg) else none)
  if sumKg allocation < targetKg * (9/10) then none
  else if allocation = [] then none
  else some allocation

/-- One proportion-adjustment round of `_balanced_allocation`: multiply by
    1.1 the proportions of the lots on the deficient side of the target and by
    0.9 those on the other side (lots exactly at the target are untouched),
    then renormalize. -/
def balancedAdjust (lots : List LotData) (dcTarget dcResult : ℚ) (props : List ℚ) :
    List ℚ :=
  let props2 := (lots.zip props).map (fun p =>
    let dc := p.1.dc_real.getD 0
    if dcResult > dcTarget then
      if dc < dcTarget then p.2 * (11/10)
      else if dc > dcTarget then p.2 * (9/10)
      else p.2
    else
      if dc > dcTarget then p.2 * (11/10)
      else if dc < dcTarget then p.2 * (9/10)
      else p.2)
  let tot := props2.sum
  if tot > 0 then props2.map (· / tot) else props2

/-- The 50-iteration loop of `_balanced_allocation` with an early exit when
    the weighted DC is within 0.1 of the target. -/
def balancedIter (lots : List LotData) (dcTarget : ℚ) : ℕ → List ℚ → List ℚ
  | 0, props => props
  | fuel + 1, props =>
    let dcResult := ((lots.zip props).map (fun p => p.1.dc_real.getD 0 * p.2)).sum
    if qabs (dcResult - dcTarget) < 1/10 then props
    else balancedIter lots dcTarget fuel (balancedAdjust lots dcTarget dcResult props)

/-- Convert proportions to kilograms: clamp at 95% of availability and keep
    only lots meeting the 10 kg floor (shared by the balanced and weighted
    strategies). -/
def propsToAllocation (lots : List LotData) (targetKg : ℚ) (props : List ℚ) :
    List (LotData × ℚ) :=
  (lots.zip props).filterMap (fun p =>
    let kg0 := targetKg * p.2
    let maxUsable := p.1.qty_available * (95/100)
    let kg := if kg0 > maxUsable then maxUsable else kg0
    if kg ≥ MIN_LOT_USAGE_KG then some (p.1, kg) else none)

/-- `BlendOptimizer._balanced_allocation`. -/
def balancedAllocation (lots : List LotData) (targetKg dcTarget : ℚ) :
    Option (List (LotData × ℚ)) :=
  if lots.length = 0 then none
  else
    let props0 := List.replicate lots.length ((1 : ℚ) / lots.length)
    let props := balancedIter lots dcTarget 50 props0
    let allocation := propsToAllocation lots targetKg props
    if sumKg allocation < targetKg * (9/10) then none
    else if allocation = [] then none
    else some allocation

/-- `BlendOptimizer._weighted_allocation_v2`. -/
def weightedAllocationV2 (lots : List LotData) (targetKg dcTarget : ℚ) :
    Option (List (LotData × ℚ)) :=
  let weights := lots.map (fun l =>
    (1 : ℚ) / (1 + qabs (l.dc_real.getD 0 - dcTarget) / 10))
  let totalWeight := weights.sum
  if totalWeight = 0 then none
  else
    let props := weights.map (· / totalWeight)
    let allocation := propsToAllocation lots targetKg props
    if sumKg allocation < targetKg * (9/10) then none
    else if allocation = [] then none
    else some allocation

/-- Loop body of `_greedy_balanced_allocation`: first lot gets half the
    remaining mass; later lots get 30% of the remaining mass when the running
    weighted DC is within 1 of the target, else 50%, always clamped at 95% of
    availability and subject to the 10 kg floor. -/
def greedyBalancedGo (dcTarget : ℚ) :
    List LotData → List (LotData × ℚ) → ℚ → List (LotData × ℚ)
  | [], acc, _ => acc
  | l :: rest, acc, remaining =>
    if remaining ≤ 0 then acc
    else
      let kg :=
        if acc = [] then qmin (remaining * (5/10)) (l.qty_available * (95/100))
        else
          let currentDc :=
            ((acc.map (fun p => p.1.dc_real.getD 0 * p.2)).sum) / sumKg acc
          if qabs (currentDc - dcTarget) < 1 then
            qmin (remaining * (3/10)) (l.qty_available * (95/100))
          else qmin (remaining * (5/10)) (l.qty_available * (95/100))
      if kg ≥ MIN_LOT_USAGE_KG then
        greedyBalancedGo dcTarget rest (acc ++ [(l, kg)]) (remaining - kg)
      else greedyBalancedGo dcTarget rest acc remaining

/-- `BlendOptimizer._greedy_balanced_allocation`: sort by distance to the DC
    target (stably, as Python `sorted`), then allocate greedily. -/
def greedyBalancedAllocation (lots : List LotData) (targetKg dcTarget : ℚ) :
    Option (List (LotData × ℚ)) :=
  let sortedLots := stableSort (fun a b =>
    qabs (a.dc_real.getD 0 - dcTarget) ≤ qabs (b.dc_real.getD 0 - dcTarget)) lots
  let allocation := greedyBalancedGo dcTarget sortedLots [] targetKg
  if sumKg allocation < targetKg * (9/10) then none
  else if allocation = [] then none
  else some allocation

/-- `BlendOptimizer._allocate_with_strategy` for the three strategy names. -/
def allocateWithStrategy (lots : List LotData) (targetKg dcTarget : ℚ) :
    ℕ → Option (List (LotData × ℚ))
  | 0 => balancedAllocation lots targetKg dcTarget
  | 1 => weightedAllocationV2 lots targetKg dcTarget
  | _ => greedyBalancedAllocation lots targetKg dcTarget

/-- The best-of-three selection loop of `_calculate_optimal_allocation`:
    keep the allocation (with positive mass) whose weighted DC is strictly
    closest to the target, ties resolved in favour of the earlier strategy. -/
def considerStrategy (dcTarget : ℚ)
    (state : Option (List (LotData × ℚ)) × ℚ)
    (allocOpt : Option (List (LotData × ℚ))) :
    Option (List (LotData × ℚ)) × ℚ :=
  match allocOpt with
  | none => state
  | some alloc =>
    let total := sumKg alloc
    if total > 0 then
      let dcResult := ((alloc.map (fun p => p.1.dc_real.getD 0 * p.2)).sum) / total
      let dcDiff := qabs (dcResult - dcTarget)
      if dcDiff < state.2 then (some alloc, dcDiff) else state
    else state

/-- `BlendOptimizer._calculate_optimal_allocation`. -/
def calculateOptimalAllocation (lots : List LotData) (targetKg : ℚ)
    (req : Requirements) : Option (List (LotData × ℚ)) :=
  if lots = [] then none
  else
    match req.dc_target with
    | none => simpleAllocation lots targetKg
    | some dcTarget =>
      let validLots := lots.filter (fun l => l.dc_real ≠ none)
      if validLots = [] then none
      else
        let dcValues := validLots.map (fun l => l.dc_real.getD 0)
        let dcMin : ℚ := dcValues.foldl qmin dcValues.headI
        let dcMax : ℚ := dcValues.foldl qmax dcValues.headI
        if dcMax - dcMin < 2 then uniformAllocation validLots targetKg
        else if dcTarget < dcMin - 5 ∨ dcTarget > dcMax + 5 then
          simpleAllocation validLots targetKg
        else
          (([0, 1, 2].map (allocateWithStrategy validLots targetKg dcTarget)).foldl
            (considerStrategy dcTarget) (none, 999)).1

/-!  ## Candidate filter and ranking
     (`InventoryManager.filter_lots`, `BlendOptimizer._filter_candidates`)  -/

/-- `CompatibilityManager.check_material_state_compatibility` (the boolean
    component; the textual reason is not consumed by the engine). -/
def materialStateCompatible (p : ProductCode) (dcTarget : Option ℚ) : Bool :=
  match p.state with
  | none => false
  | some st =>
    if ¬ MATERIAL_STATE_KEYS.contains st then false
    else if st = ['P'] then true
    else if st = ['M'] then
      match dcTarget with
      | some t => decide (t ≤ 50)
      | none => true
    else if st = ['S'] then
      match dcTarget with
      | some t => decide (t ≤ 30)
      | none => true
    else if st = ['O'] then false
    else true

/-- `BlendOptimizer._is_species_compatible_flexible`. -/
def speciesCompatibleFlexible (lot : LotData) (speciesTarget : Str)
    (duckTarget : Option ℚ) : Bool :=
  let lotSpecies := lot.product.species
  let duckReal := lot.duck_real.getD 0
  if speciesTarget = ['A'] then
    if lotSpecies = some ['O'] ∧ duckReal < 15 then false
    else if duckReal ≥ 80 then true
    else if duckReal ≥ 50 then true
    else if lotSpecies = some ['A'] then true
    else false
  else if speciesTarget = ['O'] then
    if truthy duckTarget ∧ duckTarget.getD 0 > 0 then
      decide (duckReal ≤ duckTarget.getD 0 + 30)
    else decide (¬ duckReal > 95)
  else if speciesTarget = ['O', 'A'] then true
  else if lotSpecies = some speciesTarget then true
  else false

/-- The `get_base_color` helper of `_is_color_compatible_flexible`: strip the
    part after a dot, remove every `PW` then every `NPW` occurrence, and keep
    the first remaining character. -/
def getBaseColor (colorStr : Str) : Option Char :=
  if colorStr = [] then none
  else
    let s1 := if colorStr.contains '.' then colorStr.takeWhile (· ≠ '.') else colorStr
    let s2 := replaceAll ("NPW".toList) (replaceAll ("PW".toList) s1)
    s2.head?

/-- `BlendOptimizer._is_color_compatible_flexible` (both arms of the final
    base-color match return `True` in the source; the PW-mismatch case is
    admitted with a penalty handled downstream). -/
def colorCompatibleFlexible (lot : LotData) (colorTarget : Str) : Bool :=
  match lot.product.color with
  | none => false
  | some lotColor =>
    if lotColor = colorTarget then true
    else
      match getBaseColor colorTarget, getBaseColor lotColor with
      | some tb, some lb => tb = lb
      | _, _ => false

/-- `InventoryManager.filter_lots`: the sequential candidate filters. -/
def filterLots (inv : List LotData) (species color : Option Str)
    (minDc maxDc minQty : Option ℚ) (excludeWR excludeRaw allowEstimated : Bool) :
    List LotData :=
  let f1 := if excludeRaw then inv.filter (fun l => l.product.group ≠ some ['G']) else inv
  let f2 := match species with
    | some sp => f1.filter (fun l => l.product.species = some sp)
    | none => f1
  let f3 := match color with
    | some co => f2.filter (fun l => l.product.color = some co)
    | none => f2
  let f4 := match minDc with
    | some lo => f3.filter (fun l => l.dc_real ≠ none ∧ l.dc_real.getD 0 ≥ lo)
    | none => f3
  let f5 := match maxDc with
    | some hi => f4.filter (fun l => l.dc_real ≠ none ∧ l.dc_real.getD 0 ≤ hi)
    | none => f4
  let f6 := match minQty with
    | some q => f5.filter (fun l => l.qty_available ≥ q)
    | none => f5
  let f7 := if excludeWR then f6.filter (fun l => ¬ l.isWR) else f6
  if ¬ allowEstimated then f7.filter (fun l => ¬ l.is_estimated) else f7

/-- `BlendOptimizer._calculate_duck_penalty` (preservation of low-duck
    stock: quadratic penalty below half the target and above twice it). -/
def calculateDuckPenalty (duckReal duckTarget : Option ℚ) : ℚ :=
  match duckTarget, duckReal with
  | none, _ => 0
  | _, none => 0
  | some t, some d =>
    let acceptableUpper := t * 2
    let preservationThreshold := t * (5/10)
    if d < preservationThreshold then (preservationThreshold - d) ^ 2
    else if d ≤ acceptableUpper then 0
    else (d - acceptableUpper) ^ 2

/-- Exact square root of a rational whose numerator and denominator are
    perfect squares (`Nat.sqrt` is exact there); every instantiation in this
    development is at such a value (in fact at `0`). -/
def ratSqrt (q : ℚ) : ℚ := (Nat.sqrt q.num.toNat : ℚ) / (Nat.sqrt q.den : ℚ)

/-- Python `x ** 1.5` for a nonnegative rational, `x^1.5 = x·√x`; exact at the
    perfect squares where the ranking key evaluates it in this development. -/
def pow15 (q : ℚ) : ℚ := q * ratSqrt q

/-- The DC-overqualification component of the candidate ranking key:
    `max(0, dc_real − dc_target) ** 1.5`, `999` for a missing DC. -/
def overqualKey (dcTarget : ℚ) (l : LotData) : ℚ :=
  match l.dc_real with
  | none => 999
  | some d => pow15 (qmax 0 (d - dcTarget))

/-- The cost component of the ranking keys: missing cost sorts as `999`. -/
def costKey (l : LotData) : ℚ := l.cost_per_kg.getD 999

/-- Lexicographic `≤` on 4-tuples, as Python compares key tuples. -/
def lex4LE (a b : ℚ × ℚ × ℚ × ℚ) : Bool :=
  if a.1 ≠ b.1 then a.1 ≤ b.1
  else if a.2.1 ≠ b.2.1 then a.2.1 ≤ b.2.1
  else if a.2.2.1 ≠ b.2.2.1 then a.2.2.1 ≤ b.2.2.1
  else a.2.2.2 ≤ b.2.2.2

/-- Lexicographic `≤` on pairs. -/
def lex2LE (a b : ℚ × ℚ) : Bool :=
  if a.1 ≠ b.1 then a.1 ≤ b.1 else a.2 ≤ b.2

/-- The ranking key of `_filter_candidates` when a DC target is present:
    duck-preservation penalty, DC overqualification, negated quality score,
    cost. -/
def sortKeyDC (dcTarget : ℚ) (duckTarget : Option ℚ) (l : LotData) : ℚ × ℚ × ℚ × ℚ :=
  (calculateDuckPenalty l.duck_real duckTarget, overqualKey dcTarget l,
   -l.qualityScore, costKey l)

/-- `BlendOptimizer._filter_candidates`: wide inventory filter, flexible
    species/colour/state refinement, then the preservation-aware ranking
    (Python `list.sort` is stable; so is `stableSort`). -/
def filterCandidates (inv : List LotData) (req : Requirements)
    (allowEstimated : Bool) : List LotData :=
  let minDcMaxDc : Option ℚ × Option ℚ :=
    match req.dc_target with
    | some t => (some (qmax 0 (t - INITIAL_DC_RANGE)), some (qmin 100 (t + INITIAL_DC_RANGE)))
    | none => (none, none)
  let excludeWR := ¬ req.water_repellent
  let allCandidates := filterLots inv none none minDcMaxDc.1 minDcMaxDc.2
    (some MIN_LOT_USAGE_KG) excludeWR true allowEstimated
  let filtered := allCandidates.filter (fun lot =>
    materialStateCompatible lot.product req.dc_target &&
    (match req.species with
     | some st => speciesCompatibleFlexible lot st req.duck_target
     | none => true) &&
    (match req.color with
     | some ct => colorCompatibleFlexible lot ct
     | none => true))
  match req.dc_target with
  | some t =>
    stableSort (fun a b =>
      lex4LE (sortKeyDC t req.duck_target a) (sortKeyDC t req.duck_target b)) filtered
  | none =>
    stableSort (fun a b =>
      lex2LE (-a.qualityScore, costKey a) (-b.qualityScore, costKey b)) filtered

/-!  ## Combination generator (`BlendOptimizer._generate_combinations*`)  -/

/-- `itertools.combinations`: all `n`-element subsets of `l` in the order
    Python yields them (lexicographic by position). -/
def pyCombinations {α : Type} : ℕ → List α → List (List α)
  | 0, _ => [[]]
  | _ + 1, [] => []
  | n + 1, x :: xs =>
    ((pyCombinations n xs).map (fun c => x :: c)) ++ pyCombinations (n + 1) xs

/-- Inner loop of the fixed-size enumeration of `_generate_combinations`:
    append each non-`None` allocation and stop at the `max_combinations`
    safety cap. -/
def genForSubsets (targetKg : ℚ) (req : Requirements)
    (acc : List (List (LotData × ℚ))) :
    List.{0} (List LotData) → List (List (LotData × ℚ))
  | [] => acc
  | s :: rest =>
    let acc2 := match calculateOptimalAllocation s targetKg req with
      | some a => acc ++ [a]
      | none => acc
    if acc2.length ≥ MAX_COMBINATIONS then acc2
    else genForSubsets targetKg req acc2 rest

/-- The candidate pool for one subset size (`[:300]`, `[:200]`, `[:150]`). -/
def poolForN (candidates : List LotData) (n : ℕ) : List LotData :=
  if n ≤ 5 then candidates.take 300
  else if n ≤ 7 then candidates.take 200
  else candidates.take 150

/-- The outer `n_lots` loop of `_generate_combinations` (sizes 2 up to
    `max_lots`), with the `max_combinations` break between sizes. -/
def genSizesLoop (candidates : List LotData) (targetKg : ℚ) (req : Requirements)
    (maxLots : ℕ) (acc : List (List (LotData × ℚ))) : ℕ → List (List (LotData × ℚ))
  | 0 => acc
  | fuel + 1 =>
    let n := maxLots - fuel
    let acc2 := genForSubsets targetKg req acc (pyCombinations n (poolForN candidates n))
    if acc2.length ≥ MAX_COMBINATIONS then acc2
    else genSizesLoop candidates targetKg req maxLots acc2 fuel

/-- Loop body of `_greedy_combination`: walk the candidate list, skipping the
    seed, stopping at `max_lots` lots or once the target mass is reached;
    a lot is added only when its chunk meets the 10 kg floor and (when both a
    DC target and the lot's DC are truthy) keeps the running weighted DC
    within 5 of the current distance to the target. -/
def greedyComboGo (start : LotData) (dcTargetOpt : Option ℚ) (targetKg : ℚ)
    (maxLots : ℕ) :
    List LotData → List (LotData × ℚ) → ℚ → ℚ → List (LotData × ℚ)
  | [], combo, _, _ => combo
  | lot :: rest, combo, currentKg, currentDcSum =>
    if lot = start then greedyComboGo start dcTargetOpt targetKg maxLots rest combo currentKg currentDcSum
    else if combo.length ≥ maxLots then combo
    else if currentKg ≥ targetKg then combo
    else
      let remainingKg := targetKg - currentKg
      let kgToAdd := qmin remainingKg (qmin (lot.qty_available * (9/10)) (targetKg * (3/10)))
      if kgToAdd < MIN_LOT_USAGE_KG then
        greedyComboGo start dcTargetOpt targetKg maxLots rest combo currentKg currentDcSum
      else if truthy dcTargetOpt ∧ truthy lot.dc_real then
        let newKg := currentKg + kgToAdd
        let newDcSum := currentDcSum + lot.dc_real.getD 0 * kgToAdd
        let newDcAvg := newDcSum / newKg
        let currentDcAvg := if currentKg > 0 then currentDcSum / currentKg else 0
        let t := dcTargetOpt.getD 0
        if qabs (newDcAvg - t) ≤ qabs (currentDcAvg - t) + 5 then
          greedyComboGo start dcTargetOpt targetKg maxLots rest (combo ++ [(lot, kgToAdd)]) newKg newDcSum
        else
          greedyComboGo start dcTargetOpt targetKg maxLots rest combo currentKg currentDcSum
      else
        greedyComboGo start dcTargetOpt targetKg maxLots rest
          (combo ++ [(lot, kgToAdd)]) (currentKg + kgToAdd)
          (currentDcSum + (if truthy lot.dc_real then lot.dc_real.getD 0 * kgToAdd else 0))

/-- `BlendOptimizer._greedy_combination`: seed the blend with
    `min(0.3·target, 0.9·availability)` of the start lot, grow it greedily,
    and return it only when it holds at least two lots. -/
def greedyCombination (start : LotData) (candidates : List LotData)
    (targetKg : ℚ) (req : Requirements) (maxLots : ℕ) :
    Option (List (LotData × ℚ)) :=
  let seedKg := qmin (targetKg * (3/10)) (start.qty_available * (9/10))
  let combo0 := [(start, seedKg)]
  let dcSum0 := if truthy start.dc_real then start.dc_real.getD 0 * seedKg else 0
  let combo := greedyComboGo start req.dc_target targetKg maxLots candidates combo0 seedKg dcSum0
  if combo.length ≥ 2 then some combo else none

/-- `BlendOptimizer._generate_combinations`: fixed-size subset enumeration
    followed by greedy seeds from the top 100 candidates. -/
def generateCombinations (candidates : List LotData) (req : Requirements) :
    List (List (LotData × ℚ)) :=
  let targetKg := req.quantity_kg.getD 100
  let maxLots := req.max_lots.getD MAX_LOTS_PER_BLEND
  let subsetCombos := genSizesLoop candidates targetKg req maxLots [] (maxLots - 1)
  (candidates.take 100).foldl (fun acc start =>
    match greedyCombination start candidates targetKg req maxLots with
    | some c => acc ++ [c]
    | none => acc) subsetCombos

/-- The deduplication signature of `_deduplicate_combinations`: the sorted
    tuple of the combination's lot codes. -/
def comboSignature (c : List (LotData × ℚ)) : List Str :=
  stableSort strLE (c.map (fun p => p.1.lot_code))

/-- `BlendOptimizer._deduplicate_combinations`: keep the first combination
    for each signature. -/
def dedupCombos : List (List (LotData × ℚ)) → List (List Str) →
    List (List (LotData × ℚ))
  | [], _ => []
  | c :: rest, seen =>
    let sig := comboSignature c
    if seen.contains sig then dedupCombos rest seen
    else c :: dedupCombos rest (sig :: seen)

/-- `BlendOptimizer._generate_combinations_diverse`: four diversification
    strategies (ranked order, cost order, availability order, two random
    shuffles), early-stopping when `5000 · num_solutions` combinations are
    already collected, then global deduplication.  The two shuffle outcomes
    of `random.shuffle` are passed explicitly. -/
def generateCombinationsDiverse (candidates : List LotData) (req : Requirements)
    (numSolutions : ℕ) (shuffle1 shuffle2 : List LotData) :
    List (List (LotData × ℚ)) :=
  let target := numSolutions * 5000
  let all1 := generateCombinations candidates req
  if all1.length ≥ target then dedupCombos all1 []
  else
    let byCost := stableSort (fun a b => costKey a ≤ costKey b) candidates
    let all2 := all1 ++ generateCombinations (byCost.take 300) req
    if all2.length ≥ target then dedupCombos all2 []
    else
      let byQty := stableSort (fun a b => -a.qty_available ≤ -b.qty_available) candidates
      let all3 := all2 ++ generateCombinations (byQty.take 300) req
      if all3.length ≥ target then dedupCombos all3 []
      else
        let all4 := all3 ++ generateCombinations (shuffle1.take 200) req
        let all5 :=
          if all4.length ≥ target then all4
          else all4 ++ generateCombinations (shuffle2.take 200) req
        dedupCombos all5 []

/-!  ## Scoring and the optimize pipeline  -/

/-- `CompatibilityManager.calculate_duck_content_score`. -/
def duckContentScore (actualDuck : ℚ) (duckTarget : Option ℚ)
    (duckTolerance : ℚ) : ℚ :=
  match duckTarget with
  | none => 0
  | some t =>
    let deviation := qabs (actualDuck - t)
    if actualDuck < t - duckTolerance then -(500 * ((t - actualDuck) / t))
    else if actualDuck > t + duckTolerance then -(200 * ((actualDuck - t) / t))
    else 600 * (1 - deviation / duckTolerance)

/-- `BlendOptimizer._score_dc_match`. -/
def scoreDcMatch (s : BlendSolution) (req : Requirements) : ℚ :=
  let t := req.dc_target.getD 0
  let tol := req.dc_tolerance.getD DC_TOLERANCE_DEFAULT
  let deviation := qabs (s.dc_average - t)
  if deviation ≤ tol then W_DC_TARGET_MATCH * (1 - deviation / tol)
  else -(W_DC_TARGET_MATCH * ((deviation - tol) / tol))

/-- `BlendOptimizer._score_fp_match`. -/
def scoreFpMatch (s : BlendSolution) (req : Requirements) : ℚ :=
  let t := req.fp_target.getD 0
  let tol := req.fp_tolerance.getD FP_TOLERANCE_DEFAULT
  let deviation := qabs (s.fp_average - t)
  if deviation ≤ tol then W_FP_TARGET_MATCH * (1 - deviation / tol)
  else -(W_FP_TARGET_MATCH * ((deviation - tol) / tol))

/-- `BlendOptimizer._score_disposal_priority`. -/
def scoreDisposal (s : BlendSolution) : ℚ :=
  (s.lots.map (fun p => p.1.qualityScore * (p.2 / s.total_kg) * (5/10))).sum

/-- `BlendOptimizer._score_lot_count`: −25 for each lot 6–7, −50 for 8–9,
    −100 from the 10th on. -/
def scoreLotCount (s : BlendSolution) : ℚ :=
  let numLots := s.lots.length
  if numLots ≤ IDEAL_LOTS_PER_BLEND then 0
  else
    (((List.range numLots).map (· + 1)).filter (· > IDEAL_LOTS_PER_BLEND)).foldl
      (fun acc n => acc + (if n ≤ 7 then (-25 : ℚ) else if n ≤ 9 then -50 else -100)) 0

/-- `BlendOptimizer._score_species_compatibility`. -/
def scoreSpeciesCompat (s : BlendSolution) (req : Requirements) : ℚ :=
  match req.species with
  | none => 0
  | some blendSpecies =>
    if blendSpecies = ['O'] ∧ truthy req.duck_target ∧ req.duck_target.getD 0 > 0 then
      (s.lots.map (fun p =>
        let weight := p.2 / s.total_kg
        if p.1.product.species = some ['O', 'A'] then W_SPECIES_OPT_BONUS * weight
        else if p.1.product.species = some ['A'] then
          W_SPECIES_MISMATCH_PENALTY * weight * (5/10)
        else 0)).sum
    else 0

/-- `BlendOptimizer._score_estimated_data`: share-weighted −100 for each
    imputed parameter that the request actually targets. -/
def scoreEstimatedData (s : BlendSolution) (req : Requirements) : ℚ :=
  let dcRequired := req.dc_target ≠ none
  let fpRequired := req.fp_target ≠ none
  (s.lots.map (fun p =>
    let weight := if s.total_kg > 0 then p.2 / s.total_kg else 0
    ((if dcRequired ∧ p.1.dc_was_imputed then W_ESTIMATED_DATA_PENALTY else 0) +
     (if fpRequired ∧ p.1.fp_was_imputed then W_ESTIMATED_DATA_PENALTY else 0)) * weight)).sum

/-- `BlendOptimizer._score_dc_overqualification`. -/
def scoreDcOverqual (s : BlendSolution) (req : Requirements) : ℚ :=
  match req.dc_target with
  | none => 0
  | some t =>
    (s.lots.map (fun p =>
      match p.1.dc_real with
      | none => 0
      | some d =>
        let surplus := d - t
        if surplus > W_DC_OVERQUAL_THRESHOLD then
          let weight := (if s.total_kg > 0 then p.2 / s.total_kg else 0)
          (-(surplus ^ 2)) * W_DC_OVERQUAL_WEIGHT * weight
        else 0)).sum

/-- `BlendOptimizer._evaluate_combination`: build the solution and sum the
    eight score components. -/
def evaluateCombination (combination : List (LotData × ℚ)) (req : Requirements) :
    BlendSolution :=
  let s := mkBlendSolution combination req
  let score :=
    (if req.dc_target ≠ none then scoreDcMatch s req else 0) +
    (if req.fp_target ≠ none then scoreFpMatch s req else 0) +
    (if req.duck_target ≠ none then
      duckContentScore s.duck_average req.duck_target
        (req.duck_tolerance.getD DUCK_TOLERANCE_DEFAULT)
     else 0) +
    scoreDisposal s + scoreLotCount s + scoreSpeciesCompat s req +
    scoreEstimatedData s req + scoreDcOverqual s req
  { s with score := score }

/-- `BlendOptimizer._quick_validate_combination`: nonempty, mass within
    ±30% of the target, and (for a truthy DC target) a crude weighted DC
    within 10 of the target. -/
def quickValidateCombination (combo : List (LotData × ℚ)) (req : Requirements) :
    Bool :=
  if combo = [] then false
  else
    let totalKg := sumKg combo
    let targetKg := req.quantity_kg.getD 100
    if totalKg < targetKg * (7/10) ∨ totalKg > targetKg * (13/10) then false
    else if truthy req.dc_target then
      let dcAvg :=
        ((combo.filter (fun p => truthy p.1.dc_real)).map
          (fun p => p.1.dc_real.getD 0 * p.2)).sum / totalKg
      decide (qabs (dcAvg - req.dc_target.getD 0) ≤ 10)
    else true

/-- The scoring loop of `optimize` (step 3): quick-validate, evaluate, keep
    valid solutions, early-stopping at `10 · num_solutions` of them. -/
def optimizeLoop (req : Requirements) (earlyStop : ℕ) :
    List (List (LotData × ℚ)) → List BlendSolution → List BlendSolution
  | [], sols => sols
  | c :: rest, sols =>
    if ¬ quickValidateCombination c req then optimizeLoop req earlyStop rest sols
    else
      let s := evaluateCombination c req
      if s.isValidSolution then
        let sols2 := sols ++ [s]
        if sols2.length ≥ earlyStop then sols2
        else optimizeLoop req earlyStop rest sols2
      else optimizeLoop req earlyStop rest sols

/-- `BlendOptimizer.optimize`: filter candidates, generate diverse
    combinations, score with early stopping, and return the top
    `num_solutions` by score (Python's stable descending sort).  The two
    `random.shuffle` outcomes of diversification strategy 4 are explicit
    parameters — the source exposes no seed and draws them from the global
    generator. -/
def optimize (inv : List LotData) (req : Requirements) (numSolutions : ℕ)
    (allowEstimated : Bool) (shuffle1 shuffle2 : List LotData) :
    List BlendSolution :=
  let candidates := filterCandidates inv req allowEstimated
  if candidates = [] then []
  else
    let combos := generateCombinationsDiverse candidates req numSolutions shuffle1 shuffle2
    if combos = [] then []
    else
      let sols := optimizeLoop req (numSolutions * 10) (combos.take MAX_COMBINATIONS) []
      (stableSort (fun a b => b.score ≤ a.score) sols).take numSolutions

/-!  ## Percentage validation during lot loading
     (`app/core/inventory_service.py`, `InventoryService`)  -/

/-- Decimal digits of a row number, as rendered into the error message. -/
def natStr (n : ℕ) : Str := (toString n).toList

/-- Rendering of the offending value inside the error message (the numeric
    formatting differs from Python's float formatting; the claims concern the
    field name and the row number, which are embedded verbatim). -/
def ratStr (v : ℚ) : Str := (toString v.num).toList ++ ("/".toList) ++ (toString v.den).toList

/-- The single-quote character (used around the field name in the message). -/
def quoteChar : Char := Char.ofNat 39

/-- The `ValueError` message raised by
    `InventoryService.validate_percentage_field`: it names the row number,
    the article/lot pair, the field and the value. -/
def pctErrMsg (value : ℚ) (fieldName articleCode lotCode : Str) (rowNum : ℕ) : Str :=
  ("CSV Row ".toList) ++ natStr rowNum ++ (" (".toList) ++ articleCode ++ ("/".toList) ++
    lotCode ++ ("): Field ".toList) ++ [quoteChar] ++ fieldName ++ [quoteChar] ++
    (" has invalid value ".toList) ++ ratStr value ++
    (". Percentage fields must be between 0 and 100. ".toList) ++
    ("Check your CSV column mapping - this may indicate the wrong column is being read.".toList)

/-- `InventoryService.validate_percentage_field`: `None` passes; a value
    strictly below 0 or strictly above 100 raises a `ValueError` whose message
    names the field and the row. -/
def validatePercentageField (value : Option ℚ) (fieldName articleCode lotCode : Str)
    (rowNum : ℕ) : Except Str Unit :=
  match value with
  | none => .ok ()
  | some v =>
    if v < 0 ∨ v > 100 then .error (pctErrMsg v fieldName articleCode lotCode rowNum)
    else .ok ()

/-- The five percentage validations `InventoryService.dataframe_to_lots`
    performs on each row, in source order (the first failing field raises). -/
def validateRowPercentages (dcReal duckReal oeReal featherReal dcNominal : Option ℚ)
    (articleCode lotCode : Str) (rowNum : ℕ) : Except Str Unit := do
  validatePercentageField dcReal ("dc_real (SCO_DownCluster_Real)".toList)
    articleCode lotCode rowNum
  validatePercentageField duckReal ("duck_real (SCO_Duck)".toList)
    articleCode lotCode rowNum
  validatePercentageField oeReal ("oe_real (SCO_OE)".toList)
    articleCode lotCode rowNum
  validatePercentageField featherReal ("feather_real (SCO_Feather)".toList)
    articleCode lotCode rowNum
  validatePercentageField dcNominal ("dc_nominal (SCO_DownCluster_Nominal)".toList)
    articleCode lotCode rowNum

/-!  ## Concrete scenarios

The lots and requests below instantiate the pipeline on concrete inventories;
the claim theorems evaluate the engine on them.  All quantities are exact
decimals, so `ℚ` arithmetic coincides with the Python float arithmetic (every
intermediate value in these runs stays well inside the 53-bit mantissa). -/

/-- Scenario A, lot 1: down lot with ample availability. -/
def aLot1 : LotData :=
  { mkLot ("L1".toList) ("POB".toList) with
    dc_real := some 50, duck_real := some 0, qty_available := 1000, cost_per_kg := some 1 }

/-- Scenario A, lot 2: identical but more expensive. -/
def aLot2 : LotData :=
  { mkLot ("L2".toList) ("POB".toList) with
    dc_real := some 50, duck_real := some 0, qty_available := 1000, cost_per_kg := some 2 }

/-- Scenario A request: 100 kg, no quality targets. -/
def aReq : Requirements := { quantity_kg := some 100 }

/-- Scenario A inventory. -/
def aInv : List LotData := [aLot1, aLot2]

/-- Scenario A run (both strategy-4 shuffles left in ranked order). -/
def aRun : List BlendSolution := optimize aInv aReq 10 false aInv aInv

/-- The combination the scenario-A run returns: the simple allocation of the
    pair assigns `min(1.2·100, 0.95·1000) = 120` kg to the first lot alone. -/
def aCombo : List (LotData × ℚ) := [(aLot1, 120)]

/-- Scenario B (diversification): a "near" lot at the DC target. -/
def bNear (code : Str) (cost : ℚ) : LotData :=
  { mkLot code ("POB".toList) with
    dc_real := some 50, duck_real := some 30, qty_available := 27, cost_per_kg := some cost }

/-- Scenario B near lots. -/
def bN1 : LotData := bNear ("N1".toList) 1
/-- Scenario B near lot 2. -/
def bN2 : LotData := bNear ("N2".toList) 2
/-- Scenario B near lot 3. -/
def bN3 : LotData := bNear ("N3".toList) 3
/-- Scenario B near lot 4. -/
def bN4 : LotData := bNear ("N4".toList) 4

/-- Scenario B "far" lot, 15 DC points below the target. -/
def bFar : LotData :=
  { mkLot ("F0".toList) ("POB".toList) with
    dc_real := some 35, duck_real := some 0, qty_available := 20, cost_per_kg := some 5 }

/-- Scenario B request: DC target 50, 100 kg, at most 4 lots. -/
def bReq : Requirements :=
  { dc_target := some 50, quantity_kg := some 100, max_lots := some 4 }

/-- Scenario B inventory (already in ranked candidate order). -/
def bInv : List LotData := [bN1, bN2, bN3, bN4, bFar]

/-- A second permutation of the scenario-B candidates, standing for a
    different outcome of `random.shuffle` in diversification strategy 4. -/
def bShuffled : List LotData := [bN2, bN3, bN4, bN1, bFar]

/-- Scenario B run with the shuffle leaving the ranked order unchanged. -/
def bRunId : List BlendSolution := optimize bInv bReq 10 false bInv bInv

/-- Scenario B run with the other shuffle outcome. -/
def bRunSh : List BlendSolution := optimize bInv bReq 10 false bShuffled bInv

/-- Scenario C (greedy seed): a starting lot with 11 kg available. -/
def cStart : LotData :=
  { mkLot ("S1".toList) ("POB".toList) with
    dc_real := some 50, duck_real := some 0, qty_available := 11, cost_per_kg := some 1 }

/-- Scenario C: a second lot with ample availability. -/
def cOther : LotData :=
  { mkLot ("S2".toList) ("POB".toList) with
    dc_real := some 50, duck_real := some 0, qty_available := 1000, cost_per_kg := some 2 }

/-- Scenario C request: 100 kg, no targets. -/
def cReq : Requirements := { quantity_kg := some 100 }

/-- The combination `_greedy_combination` builds in scenario C: the seed lot
    receives `min(0.3·100, 0.9·11) = 9.9 kg`, below the 10 kg floor. -/
def cCombo : List (LotData × ℚ) := [(cStart, 99/10), (cOther, 30)]

end BlendOpt

namespace BlendOpt

/-!  ## Helper lemmas  -/

/-- `qabs` agrees with the mathematical absolute value. -/
theorem qabs_eq_abs (a : ℚ) : qabs a = |a| := by
  unfold qabs
  split
  · exact (abs_of_neg (by assumption)).symm
  · exact (abs_of_nonneg (by linarith [not_lt.mp (by assumption)])).symm

/-- `qmin` is bounded by its second argument. -/
theorem qmin_le_right (a b : ℚ) : qmin a b ≤ b := by
  unfold qmin; split
  · assumption
  · exact le_refl b

/-- `qmin` is bounded by its first argument. -/
theorem qmin_le_left (a b : ℚ) : qmin a b ≤ a := by
  unfold qmin; split
  · exact le_refl a
  · exact le_of_not_le (by assumption)

/-- Membership through stable insertion. -/
theorem mem_insertLE {α : Type} (le : α → α → Bool) (x y : α) (l : List α) :
    y ∈ insertLE le x l ↔ y = x ∨ y ∈ l := by
  induction l with
  | nil => simp [insertLE]
  | cons z zs ih =>
    unfold insertLE
    split
    · simp only [List.mem_cons, ih]
      tauto
    · simp [List.mem_cons]

/-- Membership is preserved by the stable sort. -/
theorem mem_stableSort {α : Type} (le : α → α → Bool) (l : List α) (x : α) :
    x ∈ stableSort le l ↔ x ∈ l := by
  suffices h : ∀ acc, x ∈ l.foldl (fun acc y => insertLE le y acc) acc ↔ x ∈ acc ∨ x ∈ l by
    have := h []
    simpa [stableSort] using this
  induction l with
  | nil => intro acc; simp
  | cons z zs ih =>
    intro acc
    simp only [List.foldl_cons, ih, mem_insertLE, List.mem_cons]
    tauto

/-- A truthy optional number is a nonzero `some`. -/
theorem truthy_iff (o : Option ℚ) : truthy o = true ↔ ∃ v, o = some v ∧ v ≠ 0 := by
  unfold truthy
  cases o with
  | none => simp
  | some v => simp

/-- `labGate` reads only the lot's `lab_notes`. -/
theorem labGate_congr (est : LabEstimates) (x y : LotData)
    (h : x.lab_notes = y.lab_notes) : labGate est x = labGate est y := by
  unfold labGate; rw [h]

/-- Either the DC imputation leaves the lot unchanged with both DC sources
    unusable, or it has produced a nonzero `dc_real` (leaving the fields its
    own condition reads untouched). -/
theorem imputeDC_shape (est : LabEstimates) (l : LotData) :
    (imputeDC est l = l ∧
      ((l.dc_real = none ∨ l.dc_real = some 0) →
        ((∀ e, labGate est l = some e → truthy e.dc_estimate = false) ∧
         ¬ (truthy l.dc_nominal = true ∧ l.dc_nominal.getD 0 > 0)))) ∨
    (∃ v : ℚ, v ≠ 0 ∧ (imputeDC est l).dc_real = some v ∧
      (imputeDC est l).dc_nominal = l.dc_nominal ∧
      (imputeDC est l).lab_notes = l.lab_notes) := by
  unfold imputeDC
  split
  case isTrue hd =>
    rcases hg : labGate est l with _ | e
    · simp only [hg]
      split
      case isTrue hn =>
        right
        obtain ⟨w, hw, hw0⟩ := (truthy_iff l.dc_nominal).mp hn.1
        exact ⟨w, hw0, by simp [hw], by simp, by simp⟩
      case isFalse hn =>
        left
        refine ⟨rfl, fun _ => ⟨fun e2 he2 => ?_, hn⟩⟩
        exact Option.noConfusion he2
    · simp only [hg]
      split
      case isTrue ht =>
        right
        obtain ⟨w, hw, hw0⟩ := (truthy_iff e.dc_estimate).mp ht
        refine ⟨w, hw0, ?_, ?_, ?_⟩ <;> (split <;> simp [hw])
      case isFalse ht =>
        split
        case isTrue hn =>
          right
          obtain ⟨w, hw, hw0⟩ := (truthy_iff l.dc_nominal).mp hn.1
          exact ⟨w, hw0, by simp [hw], by simp, by simp⟩
        case isFalse hn =>
          left
          refine ⟨rfl, fun _ => ⟨fun e2 he2 => ?_, hn⟩⟩
          cases he2
          simpa using ht
  case isFalse hd =>
    left
    exact ⟨rfl, fun h => absurd h hd⟩

/-- DC imputation is the identity when both sources are unusable. -/
theorem imputeDC_noop (est : LabEstimates) (x : LotData)
    (h : (x.dc_real = none ∨ x.dc_real = some 0) →
      ((∀ e, labGate est x = some e → truthy e.dc_estimate = false) ∧
       ¬ (truthy x.dc_nominal = true ∧ x.dc_nominal.getD 0 > 0))) :
    imputeDC est x = x := by
  unfold imputeDC
  split
  case isFalse => rfl
  case isTrue hd =>
    obtain ⟨hlab, hnom⟩ := h hd
    rcases hg : labGate est x with _ | e
    · simp only [hg]
      rw [if_neg hnom]
    · simp only [hg]
      rw [if_neg (by simp [hlab e hg]), if_neg hnom]

/-- The FP analogue of `imputeDC_shape`. -/
theorem imputeFP_shape (est : LabEstimates) (l : LotData) :
    (imputeFP est l = l ∧
      ((l.fp_real = none ∨ l.fp_real = some 0) →
        ((∀ e, labGate est l = some e → truthy e.fp_estimate = false) ∧
         ¬ (truthy l.fp_nominal = true ∧ l.fp_nominal.getD 0 > 0)))) ∨
    (∃ v : ℚ, v ≠ 0 ∧ (imputeFP est l).fp_real = some v ∧
      (imputeFP est l).fp_nominal = l.fp_nominal ∧
      (imputeFP est l).lab_notes = l.lab_notes) := by
  unfold imputeFP
  split
  case isTrue hd =>
    rcases hg : labGate est l with _ | e
    · simp only [hg]
      split
      case isTrue hn =>
        right
        obtain ⟨w, hw, hw0⟩ := (truthy_iff l.fp_nominal).mp hn.1
        exact ⟨w, hw0, by simp [hw], by simp, by simp⟩
      case isFalse hn =>
        left
        refine ⟨rfl, fun _ => ⟨fun e2 he2 => ?_, hn⟩⟩
        exact Option.noConfusion he2
    · simp only [hg]
      split
      case isTrue ht =>
        right
        obtain ⟨w, hw, hw0⟩ := (truthy_iff e.fp_estimate).mp ht
        exact ⟨w, hw0, by simp [hw], by simp, by simp⟩
      case isFalse ht =>
        split
        case isTrue hn =>
          right
          obtain ⟨w, hw, hw0⟩ := (truthy_iff l.fp_nominal).mp hn.1
          exact ⟨w, hw0, by simp [hw], by simp, by simp⟩
        case isFalse hn =>
          left
          refine ⟨rfl, fun _ => ⟨fun e2 he2 => ?_, hn⟩⟩
          cases he2
          simpa using ht
  case isFalse hd =>
    left
    exact ⟨rfl, fun h => absurd h hd⟩

/-- FP imputation is the identity when both sources are unusable. -/
theorem imputeFP_noop (est : LabEstimates) (x : LotData)
    (h : (x.fp_real = none ∨ x.fp_real = some 0) →
      ((∀ e, labGate est x = some e → truthy e.fp_estimate = false) ∧
       ¬ (truthy x.fp_nominal = true ∧ x.fp_nominal.getD 0 > 0))) :
    imputeFP est x = x := by
  unfold imputeFP
  split
  case isFalse => rfl
  case isTrue hd =>
    obtain ⟨hlab, hnom⟩ := h hd
    rcases hg : labGate est x with _ | e
    · simp only [hg]
      rw [if_neg hnom]
    · simp only [hg]
      rw [if_neg (by simp [hlab e hg]), if_neg hnom]

/-- `imputeDuckA` is the identity when its condition fails. -/
theorem imputeDuckA_noop (x : LotData)
    (h : x.product.species = some ['A'] → ¬ (x.duck_real = none ∨ x.duck_real = some 0)) :
    imputeDuckA x = x := by
  unfold imputeDuckA
  exact if_neg (fun hc => h hc.1 hc.2)

/-- `imputeDuckO` is the identity when its condition fails. -/
theorem imputeDuckO_noop (x : LotData)
    (h : x.product.species = some ['O'] → x.duck_real ≠ none) :
    imputeDuckO x = x := by
  unfold imputeDuckO
  exact if_neg (fun hc => h hc.1 hc.2)

/-- `imputeDuckOA` is the identity when its condition fails. -/
theorem imputeDuckOA_noop (x : LotData)
    (h : x.product.species = some ['O', 'A'] → ¬ (x.duck_real = none ∨ x.duck_real = some 0)) :
    imputeDuckOA x = x := by
  unfold imputeDuckOA
  exact if_neg (fun hc => h hc.1 hc.2)

/-- The duck defaults are the identity when all three conditions fail. -/
theorem imputeDuck_noop (x : LotData)
    (hA : x.product.species = some ['A'] → ¬ (x.duck_real = none ∨ x.duck_real = some 0))
    (hO : x.product.species = some ['O'] → x.duck_real ≠ none)
    (hOA : x.product.species = some ['O', 'A'] → ¬ (x.duck_real = none ∨ x.duck_real = some 0)) :
    imputeDuck x = x := by
  unfold imputeDuck
  rw [imputeDuckA_noop x hA, imputeDuckO_noop x hO, imputeDuckOA_noop x hOA]

/-- After the duck defaults have run, all three species conditions fail. -/
theorem imputeDuck_resolved (x : LotData) :
    ((imputeDuck x).product.species = some ['A'] →
      ¬ ((imputeDuck x).duck_real = none ∨ (imputeDuck x).duck_real = some 0)) ∧
    ((imputeDuck x).product.species = some ['O'] → (imputeDuck x).duck_real ≠ none) ∧
    ((imputeDuck x).product.species = some ['O', 'A'] →
      ¬ ((imputeDuck x).duck_real = none ∨ (imputeDuck x).duck_real = some 0)) := by
  by_cases hA : x.product.species = some ['A'] <;>
    by_cases hO : x.product.species = some ['O'] <;>
    by_cases hOA : x.product.species = some ['O', 'A'] <;>
    simp_all [imputeDuck, imputeDuckA, imputeDuckO, imputeDuckOA] <;>
    split_ifs <;> simp_all

/-- The fields FP imputation leaves untouched. -/
theorem imputeFP_frame (est : LabEstimates) (x : LotData) :
    (imputeFP est x).dc_real = x.dc_real ∧
    (imputeFP est x).dc_nominal = x.dc_nominal ∧
    (imputeFP est x).lab_notes = x.lab_notes ∧
    (imputeFP est x).duck_real = x.duck_real ∧
    (imputeFP est x).product = x.product ∧
    (imputeFP est x).dc_was_imputed = x.dc_was_imputed := by
  unfold imputeFP
  repeat' split
  all_goals simp

/-- The fields the duck defaults leave untouched. -/
theorem imputeDuck_frame (x : LotData) :
    (imputeDuck x).dc_real = x.dc_real ∧
    (imputeDuck x).dc_nominal = x.dc_nominal ∧
    (imputeDuck x).lab_notes = x.lab_notes ∧
    (imputeDuck x).fp_real = x.fp_real ∧
    (imputeDuck x).fp_nominal = x.fp_nominal ∧
    (imputeDuck x).product = x.product ∧
    (imputeDuck x).dc_was_imputed = x.dc_was_imputed := by
  unfold imputeDuck imputeDuckA imputeDuckO imputeDuckOA
  repeat' split
  all_goals simp

/-- The fields `_check_estimated_data` leaves untouched. -/
theorem check_frame (x : LotData) :
    (checkEstimatedData x).dc_real = x.dc_real ∧
    (checkEstimatedData x).dc_nominal = x.dc_nominal ∧
    (checkEstimatedData x).lab_notes = x.lab_notes ∧
    (checkEstimatedData x).fp_real = x.fp_real ∧
    (checkEstimatedData x).fp_nominal = x.fp_nominal ∧
    (checkEstimatedData x).duck_real = x.duck_real ∧
    (checkEstimatedData x).product = x.product ∧
    (checkEstimatedData x).dc_was_imputed = x.dc_was_imputed := by
  unfold checkEstimatedData
  simp

/-!  ## Claim theorems  -/

/-- C6: whenever the main field of an article string (second pipe-separated
    field when at least two are present, else the whole string) contains a
    registered special code — special codes tested in descending length
    order, first containment match taken, exactly as `findSpecialMatch`
    computes — `_parse_code` sets state, species and color from the alias
    table; in particular `PGR`, `PGR.GRS` and `PBR.XXX` decode to state `P`,
    species `OA`, and color `G` resp. `B`. -/
theorem C6_special_codes :
    (∀ raw sc info, findSpecialMatch (mainField raw) = some (sc, info) →
      (parse_product_code raw).state = some info.state ∧
      (parse_product_code raw).species = some info.species ∧
      (parse_product_code raw).color = some info.color) ∧
    ((parse_product_code ("PGR".toList)).state = some ("P".toList) ∧
     (parse_product_code ("PGR".toList)).species = some ("OA".toList) ∧
     (parse_product_code ("PGR".toList)).color = some ("G".toList)) ∧
    ((parse_product_code ("PGR.GRS".toList)).state = some ("P".toList) ∧
     (parse_product_code ("PGR.GRS".toList)).species = some ("OA".toList) ∧
     (parse_product_code ("PGR.GRS".toList)).color = some ("G".toList)) ∧
    ((parse_product_code ("PBR.XXX".toList)).state = some ("P".toList) ∧
     (parse_product_code ("PBR.XXX".toList)).species = some ("OA".toList) ∧
     (parse_product_code ("PBR.XXX".toList)).color = some ("B".toList)) := by
  refine ⟨fun raw sc info h => ?_, by decide, by decide, by decide⟩
  simp [parse_product_code, parseCode, h]

/-- Witness for C6: the general clause applied to the article `PGR.GRS`,
    whose main field contains the special code `PGR`. -/
theorem C6_special_codes_witness :
    (parse_product_code ("PGR.GRS".toList)).state = some ("P".toList) ∧
    (parse_product_code ("PGR.GRS".toList)).species = some ("OA".toList) ∧
    (parse_product_code ("PGR.GRS".toList)).color = some ("G".toList) :=
  C6_special_codes.1 ("PGR.GRS".toList) ("PGR".toList)
    ⟨("P".toList), ("OA".toList), ("G".toList)⟩ (by decide)

/-- C7: during lot loading every percentage field is validated to lie within
    `[0, 100]`: `None` passes, 0 and 100 are accepted, values strictly
    outside raise a row-level `ValueError` naming the field and the row
    number; in particular `dataframe_to_lots` rejects a row whose duck
    percentage is 100.01 with exactly that error, and accepts 0 and 100. -/
theorem C7_percentage_validation :
    (∀ f a l r, validatePercentageField none f a l r = .ok ()) ∧
    (∀ v f a l r, (validatePercentageField (some v) f a l r = .ok ()) ↔ (0 ≤ v ∧ v ≤ 100)) ∧
    (∀ v f a l r, (v < 0 ∨ 100 < v) →
      validatePercentageField (some v) f a l r = .error (pctErrMsg v f a l r) ∧
      f <:+: pctErrMsg v f a l r ∧ natStr r <:+: pctErrMsg v f a l r) ∧
    (validateRowPercentages (some 0) (some 100) none none none
      ("POB".toList) ("L1".toList) 2 = .ok ()) ∧
    (validateRowPercentages (some 50) (some (10001/100)) none none none
      ("POB".toList) ("L1".toList) 7 =
      .error (pctErrMsg (10001/100) ("duck_real (SCO_Duck)".toList)
        ("POB".toList) ("L1".toList) 7)) ∧
    (validatePercentageField (some (-1/100)) ("dc_real (SCO_DownCluster_Real)".toList)
      ("POB".toList) ("L1".toList) 3 ≠ .ok ()) := by
  refine ⟨fun f a l r => rfl, fun v f a l r => ?_, fun v f a l r h => ?_,
    rfl, rfl, ?neq⟩
  case neq =>
    intro h
    have h2 : (Except.error (pctErrMsg (-1/100) ("dc_real (SCO_DownCluster_Real)".toList)
        ("POB".toList) ("L1".toList) 3) : Except Str Unit) = Except.ok () := h
    exact Except.noConfusion h2
  · by_cases hc : v < 0 ∨ v > 100
    · simp only [validatePercentageField, if_pos hc]
      constructor
      · intro he
        exact absurd he (by simp)
      · intro ⟨h1, h2⟩
        rcases hc with hc | hc <;> linarith
    · simp only [validatePercentageField, if_neg hc]
      push_neg at hc
      simpa using ⟨hc.1, hc.2⟩
  · refine ⟨?_, ?_, ?_⟩
    · simp only [validatePercentageField]
      rw [if_pos h]
    · exact ⟨("CSV Row ".toList) ++ natStr r ++ (" (".toList) ++ a ++ ("/".toList) ++
        l ++ ("): Field ".toList) ++ [quoteChar],
        [quoteChar] ++ (" has invalid value ".toList) ++ ratStr v ++
        (". Percentage fields must be between 0 and 100. ".toList) ++
        ("Check your CSV column mapping - this may indicate the wrong column is being read.".toList),
        by simp [pctErrMsg]⟩
    · exact ⟨("CSV Row ".toList),
        (" (".toList) ++ a ++ ("/".toList) ++
        l ++ ("): Field ".toList) ++ [quoteChar] ++ f ++
        [quoteChar] ++ (" has invalid value ".toList) ++ ratStr v ++
        (". Percentage fields must be between 0 and 100. ".toList) ++
        ("Check your CSV column mapping - this may indicate the wrong column is being read.".toList),
        by simp [pctErrMsg]⟩

/-- Witness for C7: the out-of-range clause applied to the value 100.01. -/
theorem C7_percentage_validation_witness :
    validatePercentageField (some (10001/100)) ("oe_real (SCO_OE)".toList)
      ("POB".toList) ("L1".toList) 4 =
      .error (pctErrMsg (10001/100) ("oe_real (SCO_OE)".toList)
        ("POB".toList) ("L1".toList) 4) ∧
    ("oe_real (SCO_OE)".toList) <:+:
      pctErrMsg (10001/100) ("oe_real (SCO_OE)".toList) ("POB".toList) ("L1".toList) 4 ∧
    natStr 4 <:+:
      pctErrMsg (10001/100) ("oe_real (SCO_OE)".toList) ("POB".toList) ("L1".toList) 4 :=
  C7_percentage_validation.2.2.1 (10001/100) ("oe_real (SCO_OE)".toList)
    ("POB".toList) ("L1".toList) 4 (by norm_num)

/-- C8 (code bug in `_extract_fill_power`): the qualitative phrases are
    tested in dictionary insertion order with containment matching, so the
    entry `alto` (750) shadows the longer phrases: the note
    "FP alla mano medio-alto" — the function's own docstring example, stated
    there to yield 700 — returns 750, and "FP molto basso" returns 550
    instead of the table's 500 for `molto basso`. -/
theorem C8_fp_qualitative_shadowed :
    extractFillPower (strLower ("FP alla mano medio-alto".toList)) = some 750 ∧
    FP_QUALITATIVE_MAP.lookup ("medio-alto".toList) = some 700 ∧
    extractFillPower (strLower ("FP molto basso".toList)) = some 550 ∧
    FP_QUALITATIVE_MAP.lookup ("molto basso".toList) = some 500 := by
  decide

/-- C9: the loader's imputation chain (DC from lab notes else positive
    nominal with the OE side effect, FP likewise, species defaults for
    `duck_real`, then `is_estimated := dc_was_imputed`) is idempotent: a
    second application leaves every field of the lot unchanged.  The theorem
    quantifies over the lab-note estimates, which covers the source's
    `parse_lab_notes` since imputation never changes `lab_notes`. -/
theorem C9_imputation_idempotent (est : LabEstimates) (l : LotData) :
    imputeLot est (imputeLot est l) = imputeLot est l := by
  have fFP := imputeFP_frame est (imputeDC est l)
  have fDuck := imputeDuck_frame (imputeFP est (imputeDC est l))
  have fCheck := check_frame (imputeDuck (imputeFP est (imputeDC est l)))
  have hduckRes := imputeDuck_resolved (imputeFP est (imputeDC est l))
  have hfpShape := imputeFP_shape est (imputeDC est l)
  unfold imputeLot
  generalize hq : checkEstimatedData (imputeDuck (imputeFP est (imputeDC est l))) = q at *
  have q_dc : q.dc_real = (imputeDC est l).dc_real := by
    rw [fCheck.1, fDuck.1, fFP.1]
  have q_dcnom : q.dc_nominal = (imputeDC est l).dc_nominal := by
    rw [fCheck.2.1, fDuck.2.1, fFP.2.1]
  have q_lab : q.lab_notes = (imputeDC est l).lab_notes := by
    rw [fCheck.2.2.1, fDuck.2.2.1, fFP.2.2.1]
  have q_fp : q.fp_real = (imputeFP est (imputeDC est l)).fp_real := by
    rw [fCheck.2.2.2.1, fDuck.2.2.2.1]
  have q_fpnom : q.fp_nominal = (imputeFP est (imputeDC est l)).fp_nominal := by
    rw [fCheck.2.2.2.2.1, fDuck.2.2.2.2.1]
  have q_duck : q.duck_real = (imputeDuck (imputeFP est (imputeDC est l))).duck_real := by
    rw [fCheck.2.2.2.2.2.1]
  have q_prod : q.product = (imputeDuck (imputeFP est (imputeDC est l))).product := by
    rw [fCheck.2.2.2.2.2.2.1]
  have hdc : imputeDC est q = q := by
    rcases imputeDC_shape est l with ⟨heq, hcond⟩ | ⟨v, hv0, hdcr, _, _⟩
    · refine imputeDC_noop est q (fun hmiss => ?_)
      rw [q_dc, heq] at hmiss
      obtain ⟨hlab, hnom⟩ := hcond hmiss
      refine ⟨fun e he => hlab e ?_, ?_⟩
      · rw [← he, labGate_congr est q l (by rw [q_lab, heq])]
      · rw [q_dcnom, heq]
        exact hnom
    · refine imputeDC_noop est q (fun hmiss => ?_)
      rw [q_dc, hdcr] at hmiss
      rcases hmiss with hm | hm
      · exact Option.noConfusion hm
      · exact absurd (Option.some.inj hm) hv0
  rw [hdc]
  have hfp : imputeFP est q = q := by
    rcases hfpShape with ⟨heq, hcond⟩ | ⟨v, hv0, hfpr, _, _⟩
    · refine imputeFP_noop est q (fun hmiss => ?_)
      rw [q_fp, heq] at hmiss
      obtain ⟨hlab, hnom⟩ := hcond hmiss
      refine ⟨fun e he => hlab e ?_, ?_⟩
      · rw [← he, labGate_congr est q (imputeDC est l) q_lab]
      · rw [q_fpnom, heq]
        exact hnom
    · refine imputeFP_noop est q (fun hmiss => ?_)
      rw [q_fp, hfpr] at hmiss
      rcases hmiss with hm | hm
      · exact Option.noConfusion hm
      · exact absurd (Option.some.inj hm) hv0
  rw [hfp]
  have hduck : imputeDuck q = q := by
    refine imputeDuck_noop q ?_ ?_ ?_
    · intro hsp
      rw [q_prod] at hsp
      rw [q_duck]
      exact hduckRes.1 hsp
    · intro hsp
      rw [q_prod] at hsp
      rw [q_duck]
      exact hduckRes.2.1 hsp
    · intro hsp
      rw [q_prod] at hsp
      rw [q_duck]
      exact hduckRes.2.2 hsp
  rw [hduck]
  rw [← hq]
  simp [checkEstimatedData]

end BlendOpt

namespace BlendOpt

/-- `weighted_avg` when some mass carries the field. -/
theorem weightedAvg_eq_div (lots : List (LotData × ℚ)) (field : LotData → Option ℚ)
    (h : 0 < presentKg lots field) :
    weightedAvg lots field = presentWeighted lots field / presentKg lots field := by
  simp only [weightedAvg]
  rw [if_pos h]

/-- `weighted_avg` is zero when no lot carries the field. -/
theorem weightedAvg_eq_zero (lots : List (LotData × ℚ)) (field : LotData → Option ℚ)
    (h : lots.filter (fun p => field p.1 ≠ none) = []) :
    weightedAvg lots field = 0 := by
  simp only [weightedAvg, presentKg, h]
  simp

/-- The five metric fields of `__post_init__` on a blend with mass. -/
theorem mkBlendSolution_averages (lots : List (LotData × ℚ)) (req : Requirements)
    (hne : lots ≠ []) (htot : sumKg lots ≠ 0) :
    (mkBlendSolution lots req).dc_average = weightedAvg lots (·.dc_real) ∧
    (mkBlendSolution lots req).fp_average = weightedAvg lots (·.fp_real) ∧
    (mkBlendSolution lots req).duck_average = weightedAvg lots (·.duck_real) ∧
    (mkBlendSolution lots req).oe_average = weightedAvg lots (·.other_elements_real) ∧
    (mkBlendSolution lots req).feather_average = weightedAvg lots (·.feather_real) := by
  simp [mkBlendSolution, hne, htot]

/-- C4: on any blend solution with positive total mass, each weighted
    aggregate equals the mass-weighted sum of the field over the lots where
    it is present divided by the mass of exactly those lots, and is zero
    when no lot provides the field. -/
theorem C4_weighted_averages (lots : List (LotData × ℚ)) (req : Requirements)
    (h : 0 < sumKg lots) :
    ((0 < presentKg lots (·.dc_real) →
       (mkBlendSolution lots req).dc_average =
         presentWeighted lots (·.dc_real) / presentKg lots (·.dc_real)) ∧
     (lots.filter (fun p => p.1.dc_real ≠ none) = [] →
       (mkBlendSolution lots req).dc_average = 0)) ∧
    ((0 < presentKg lots (·.fp_real) →
       (mkBlendSolution lots req).fp_average =
         presentWeighted lots (·.fp_real) / presentKg lots (·.fp_real)) ∧
     (lots.filter (fun p => p.1.fp_real ≠ none) = [] →
       (mkBlendSolution lots req).fp_average = 0)) ∧
    ((0 < presentKg lots (·.duck_real) →
       (mkBlendSolution lots req).duck_average =
         presentWeighted lots (·.duck_real) / presentKg lots (·.duck_real)) ∧
     (lots.filter (fun p => p.1.duck_real ≠ none) = [] →
       (mkBlendSolution lots req).duck_average = 0)) ∧
    ((0 < presentKg lots (·.other_elements_real) →
       (mkBlendSolution lots req).oe_average =
         presentWeighted lots (·.other_elements_real) /
           presentKg lots (·.other_elements_real)) ∧
     (lots.filter (fun p => p.1.other_elements_real ≠ none) = [] →
       (mkBlendSolution lots req).oe_average = 0)) ∧
    ((0 < presentKg lots (·.feather_real) →
       (mkBlendSolution lots req).feather_average =
         presentWeighted lots (·.feather_real) / presentKg lots (·.feather_real)) ∧
     (lots.filter (fun p => p.1.feather_real ≠ none) = [] →
       (mkBlendSolution lots req).feather_average = 0)) := by
  have hne : lots ≠ [] := by
    rintro rfl
    simp [sumKg] at h
  have htot : sumKg lots ≠ 0 := ne_of_gt h
  obtain ⟨h1, h2, h3, h4, h5⟩ := mkBlendSolution_averages lots req hne htot
  refine ⟨⟨?_, ?_⟩, ⟨?_, ?_⟩, ⟨?_, ?_⟩, ⟨?_, ?_⟩, ⟨?_, ?_⟩⟩ <;> intro hx
  · rw [h1]; exact weightedAvg_eq_div _ _ hx
  · rw [h1]; exact weightedAvg_eq_zero _ _ hx
  · rw [h2]; exact weightedAvg_eq_div _ _ hx
  · rw [h2]; exact weightedAvg_eq_zero _ _ hx
  · rw [h3]; exact weightedAvg_eq_div _ _ hx
  · rw [h3]; exact weightedAvg_eq_zero _ _ hx
  · rw [h4]; exact weightedAvg_eq_div _ _ hx
  · rw [h4]; exact weightedAvg_eq_zero _ _ hx
  · rw [h5]; exact weightedAvg_eq_div _ _ hx
  · rw [h5]; exact weightedAvg_eq_zero _ _ hx

end BlendOpt

namespace BlendOpt

set_option maxRecDepth 100000

/-- Witness for C4: the single-lot 120 kg blend of scenario A. -/
theorem C4_weighted_averages_witness :
    0 < sumKg aCombo ∧
    (((0 < presentKg aCombo (·.dc_real) →
       (mkBlendSolution aCombo aReq).dc_average =
         presentWeighted aCombo (·.dc_real) / presentKg aCombo (·.dc_real)) ∧
     (aCombo.filter (fun p => p.1.dc_real ≠ none) = [] →
       (mkBlendSolution aCombo aReq).dc_average = 0)) ∧
    ((0 < presentKg aCombo (·.fp_real) →
       (mkBlendSolution aCombo aReq).fp_average =
         presentWeighted aCombo (·.fp_real) / presentKg aCombo (·.fp_real)) ∧
     (aCombo.filter (fun p => p.1.fp_real ≠ none) = [] →
       (mkBlendSolution aCombo aReq).fp_average = 0)) ∧
    ((0 < presentKg aCombo (·.duck_real) →
       (mkBlendSolution aCombo aReq).duck_average =
         presentWeighted aCombo (·.duck_real) / presentKg aCombo (·.duck_real)) ∧
     (aCombo.filter (fun p => p.1.duck_real ≠ none) = [] →
       (mkBlendSolution aCombo aReq).duck_average = 0)) ∧
    ((0 < presentKg aCombo (·.other_elements_real) →
       (mkBlendSolution aCombo aReq).oe_average =
         presentWeighted aCombo (·.other_elements_real) /
           presentKg aCombo (·.other_elements_real)) ∧
     (aCombo.filter (fun p => p.1.other_elements_real ≠ none) = [] →
       (mkBlendSolution aCombo aReq).oe_average = 0)) ∧
    ((0 < presentKg aCombo (·.feather_real) →
       (mkBlendSolution aCombo aReq).feather_average =
         presentWeighted aCombo (·.feather_real) / presentKg aCombo (·.feather_real)) ∧
     (aCombo.filter (fun p => p.1.feather_real ≠ none) = [] →
       (mkBlendSolution aCombo aReq).feather_average = 0))) :=
  ⟨by decide, C4_weighted_averages aCombo aReq (by decide)⟩

/-- C3: on every freshly built blend solution each conformity flag is the
    tolerance test against the corresponding target (vacuously true when the
    target is absent, `oe` tested one-sidedly against the cap), and
    `is_valid` holds exactly when the four flags do, the total mass reaches
    90% of the requested quantity, and the lot list is nonempty. -/
theorem C3_conformity_validity (lots : List (LotData × ℚ)) (req : Requirements)
    (s : BlendSolution) (Q : ℚ) (hQ : s.requirements.quantity_kg = some Q) :
    (∀ t, req.dc_target = some t →
      ((mkBlendSolution lots req).meets_dc_target = true ↔
        qabs ((mkBlendSolution lots req).dc_average - t) ≤
          req.dc_tolerance.getD DC_TOLERANCE_DEFAULT)) ∧
    (req.dc_target = none → (mkBlendSolution lots req).meets_dc_target = true) ∧
    (∀ t, req.fp_target = some t →
      ((mkBlendSolution lots req).meets_fp_target = true ↔
        qabs ((mkBlendSolution lots req).fp_average - t) ≤
          req.fp_tolerance.getD FP_TOLERANCE_DEFAULT)) ∧
    (req.fp_target = none → (mkBlendSolution lots req).meets_fp_target = true) ∧
    (∀ t, req.duck_target = some t →
      ((mkBlendSolution lots req).meets_duck_target = true ↔
        qabs ((mkBlendSolution lots req).duck_average - t) ≤
          req.duck_tolerance.getD DUCK_TOLERANCE_DEFAULT)) ∧
    (req.duck_target = none → (mkBlendSolution lots req).meets_duck_target = true) ∧
    (∀ m, req.max_oe = some m →
      ((mkBlendSolution lots req).meets_oe_target = true ↔
        (mkBlendSolution lots req).oe_average ≤ m)) ∧
    (req.max_oe = none → (mkBlendSolution lots req).meets_oe_target = true) ∧
    (s.isValidSolution = true ↔
      (s.meets_dc_target = true ∧ s.meets_fp_target = true ∧
       s.meets_duck_target = true ∧ s.meets_oe_target = true ∧
       Q * (9/10) ≤ s.total_kg ∧ s.lots ≠ [])) := by
  refine ⟨fun t ht => ?_, fun ht => ?_, fun t ht => ?_, fun ht => ?_,
    fun t ht => ?_, fun ht => ?_, fun m hm => ?_, fun hm => ?_, ?_⟩
  · simp [mkBlendSolution, meetsTol, ht]
  · simp [mkBlendSolution, meetsTol, ht]
  · simp [mkBlendSolution, meetsTol, ht]
  · simp [mkBlendSolution, meetsTol, ht]
  · simp [mkBlendSolution, meetsTol, ht]
  · simp [mkBlendSolution, meetsTol, ht]
  · simp [mkBlendSolution, hm]
  · simp [mkBlendSolution, hm]
  · simp only [BlendSolution.isValidSolution, hQ, Option.getD_some, Bool.and_eq_true,
      decide_eq_true_eq, ge_iff_le, gt_iff_lt, List.length_pos]
    constructor
    · rintro ⟨⟨⟨⟨⟨h1, h2⟩, h3⟩, h4⟩, h5⟩, h6⟩
      exact ⟨h1, h2, h3, h4, h5, h6⟩
    · rintro ⟨h1, h2, h3, h4, h5, h6⟩
      exact ⟨⟨⟨⟨⟨h1, h2⟩, h3⟩, h4⟩, h5⟩, h6⟩

end BlendOpt

namespace BlendOpt

/-- Witness for C3: scenario A's blend with quantity 100. -/
theorem C3_conformity_validity_witness :
    (mkBlendSolution aCombo aReq).requirements.quantity_kg = some 100 ∧
    ((∀ t, aReq.dc_target = some t →
      ((mkBlendSolution aCombo aReq).meets_dc_target = true ↔
        qabs ((mkBlendSolution aCombo aReq).dc_average - t) ≤
          aReq.dc_tolerance.getD DC_TOLERANCE_DEFAULT)) ∧
    (aReq.dc_target = none → (mkBlendSolution aCombo aReq).meets_dc_target = true) ∧
    (∀ t, aReq.fp_target = some t →
      ((mkBlendSolution aCombo aReq).meets_fp_target = true ↔
        qabs ((mkBlendSolution aCombo aReq).fp_average - t) ≤
          aReq.fp_tolerance.getD FP_TOLERANCE_DEFAULT)) ∧
    (aReq.fp_target = none → (mkBlendSolution aCombo aReq).meets_fp_target = true) ∧
    (∀ t, aReq.duck_target = some t →
      ((mkBlendSolution aCombo aReq).meets_duck_target = true ↔
        qabs ((mkBlendSolution aCombo aReq).duck_average - t) ≤
          aReq.duck_tolerance.getD DUCK_TOLERANCE_DEFAULT)) ∧
    (aReq.duck_target = none → (mkBlendSolution aCombo aReq).meets_duck_target = true) ∧
    (∀ m, aReq.max_oe = some m →
      ((mkBlendSolution aCombo aReq).meets_oe_target = true ↔
        (mkBlendSolution aCombo aReq).oe_average ≤ m)) ∧
    (aReq.max_oe = none → (mkBlendSolution aCombo aReq).meets_oe_target = true) ∧
    ((mkBlendSolution aCombo aReq).isValidSolution = true ↔
      ((mkBlendSolution aCombo aReq).meets_dc_target = true ∧
       (mkBlendSolution aCombo aReq).meets_fp_target = true ∧
       (mkBlendSolution aCombo aReq).meets_duck_target = true ∧
       (mkBlendSolution aCombo aReq).meets_oe_target = true ∧
       (100 : ℚ) * (9/10) ≤ (mkBlendSolution aCombo aReq).total_kg ∧
       (mkBlendSolution aCombo aReq).lots ≠ []))) :=
  ⟨by decide,
   C3_conformity_validity aCombo aReq (mkBlendSolution aCombo aReq) 100 (by decide)⟩

/-!  ## Per-lot bounds of the allocation strategies  -/

/-- Every lot kept by the `_simple_allocation` loop gets at least the 10 kg
    floor and at most 95% of its availability. -/
theorem simpleAllocGo_mem (lots : List LotData) (remaining : ℚ)
    (p : LotData × ℚ) (hp : p ∈ simpleAllocGo lots remaining) :
    MIN_LOT_USAGE_KG ≤ p.2 ∧ p.2 ≤ p.1.qty_available * (95/100) := by
  induction lots generalizing remaining with
  | nil => simp [simpleAllocGo] at hp
  | cons l rest ih =>
    simp only [simpleAllocGo] at hp
    split at hp
    · simp at hp
    · split at hp
      · rcases List.mem_cons.mp hp with rfl | hmem
        · exact ⟨by assumption, qmin_le_right _ _⟩
        · exact ih _ hmem
      · exact ih _ hp

/-- Every lot kept by `_uniform_allocation` gets at least the 10 kg floor and
    at most 95% of its availability. -/
theorem uniformAllocation_mem (lots : List LotData) (targetKg : ℚ)
    (a : List (LotData × ℚ)) (ha : uniformAllocation lots targetKg = some a)
    (p : LotData × ℚ) (hp : p ∈ a) :
    MIN_LOT_USAGE_KG ≤ p.2 ∧ p.2 ≤ p.1.qty_available * (95/100) := by
  simp only [uniformAllocation] at ha
  split at ha
  · exact absurd ha (by simp)
  · split at ha
    · exact absurd ha (by simp)
    · cases ha
      obtain ⟨l, hl, hf⟩ := List.mem_filterMap.mp hp
      split at hf
      · cases hf
        exact ⟨by assumption, qmin_le_right _ _⟩
      · cases hf

/-- Every lot kept by the proportion-to-kilogram conversion gets at least the
    10 kg floor and at most 95% of its availability. -/
theorem propsToAllocation_mem (lots : List LotData) (targetKg : ℚ)
    (props : List ℚ) (p : LotData × ℚ) (hp : p ∈ propsToAllocation lots targetKg props) :
    MIN_LOT_USAGE_KG ≤ p.2 ∧ p.2 ≤ p.1.qty_available * (95/100) := by
  obtain ⟨q, hq, hf⟩ := List.mem_filterMap.mp hp
  simp only at hf
  split at hf
  · split at hf
    · cases hf
      exact ⟨by assumption, le_refl _⟩
    · cases hf
  · split at hf
    · cases hf
      exact ⟨by assumption, le_of_not_lt (by assumption)⟩
    · cases hf

end BlendOpt

namespace BlendOpt

/-- Every lot the `_greedy_balanced_allocation` loop adds beyond the incoming
    accumulator gets at least the 10 kg floor and at most 95% of its
    availability. -/
theorem greedyBalancedGo_mem (dcTarget : ℚ) (lots : List LotData)
    (acc : List (LotData × ℚ)) (remaining : ℚ)
    (hacc : ∀ p ∈ acc, MIN_LOT_USAGE_KG ≤ p.2 ∧ p.2 ≤ p.1.qty_available * (95/100))
    (p : LotData × ℚ) (hp : p ∈ greedyBalancedGo dcTarget lots acc remaining) :
    MIN_LOT_USAGE_KG ≤ p.2 ∧ p.2 ≤ p.1.qty_available * (95/100) := by
  induction lots generalizing acc remaining with
  | nil => exact hacc p (by simpa [greedyBalancedGo] using hp)
  | cons l rest ih =>
    simp only [greedyBalancedGo] at hp
    split at hp
    · exact hacc p hp
    · split at hp
      · split at hp
        · refine ih _ _ ?_ hp
          intro q hq
          rcases List.mem_append.mp hq with hq | hq
          · exact hacc q hq
          · rcases List.mem_singleton.mp hq with rfl
            exact ⟨by assumption, qmin_le_right _ _⟩
        · exact ih _ _ hacc hp
      · split at hp
        · split at hp
          · refine ih _ _ ?_ hp
            intro q hq
            rcases List.mem_append.mp hq with hq | hq
            · exact hacc q hq
            · rcases List.mem_singleton.mp hq with rfl
              exact ⟨by assumption, qmin_le_right _ _⟩
          · exact ih _ _ hacc hp
        · split at hp
          · refine ih _ _ ?_ hp
            intro q hq
            rcases List.mem_append.mp hq with hq | hq
            · exact hacc q hq
            · rcases List.mem_singleton.mp hq with rfl
              exact ⟨by assumption, qmin_le_right _ _⟩
          · exact ih _ _ hacc hp

/-- `_simple_allocation` returns only nonempty allocations whose lots all
    meet the floor and the availability ceiling. -/
theorem simpleAllocation_some (lots : List LotData) (targetKg : ℚ)
    (a : List (LotData × ℚ)) (ha : simpleAllocation lots targetKg = some a) :
    a ≠ [] ∧ ∀ p ∈ a, MIN_LOT_USAGE_KG ≤ p.2 ∧ p.2 ≤ p.1.qty_available * (95/100) := by
  simp only [simpleAllocation] at ha
  split at ha
  · exact absurd ha (by simp)
  · split at ha
    · exact absurd ha (by simp)
    · cases ha
      exact ⟨by assumption, fun p hp => simpleAllocGo_mem lots targetKg p hp⟩

/-- `_uniform_allocation` returns only nonempty allocations. -/
theorem uniformAllocation_some (lots : List LotData) (targetKg : ℚ)
    (a : List (LotData × ℚ)) (ha : uniformAllocation lots targetKg = some a) :
    a ≠ [] := by
  simp only [uniformAllocation] at ha
  split at ha
  · exact absurd ha (by simp)
  · split at ha
    · exact absurd ha (by simp)
    · cases ha
      assumption

/-- `_balanced_allocation` returns only nonempty allocations whose lots all
    meet the floor and the availability ceiling. -/
theorem balancedAllocation_some (lots : List LotData) (targetKg dcTarget : ℚ)
    (a : List (LotData × ℚ)) (ha : balancedAllocation lots targetKg dcTarget = some a) :
    a ≠ [] ∧ ∀ p ∈ a, MIN_LOT_USAGE_KG ≤ p.2 ∧ p.2 ≤ p.1.qty_available * (95/100) := by
  simp only [balancedAllocation] at ha
  split at ha
  · exact absurd ha (by simp)
  · split at ha
    · exact absurd ha (by simp)
    · split at ha
      · exact absurd ha (by simp)
      · cases ha
        exact ⟨by assumption, fun p hp => propsToAllocation_mem _ _ _ p hp⟩

/-- `_weighted_allocation_v2` returns only nonempty allocations whose lots
    all meet the floor and the availability ceiling. -/
theorem weightedAllocationV2_some (lots : List LotData) (targetKg dcTarget : ℚ)
    (a : List (LotData × ℚ)) (ha : weightedAllocationV2 lots targetKg dcTarget = some a) :
    a ≠ [] ∧ ∀ p ∈ a, MIN_LOT_USAGE_KG ≤ p.2 ∧ p.2 ≤ p.1.qty_available * (95/100) := by
  simp only [weightedAllocationV2] at ha
  split at ha
  · exact absurd ha (by simp)
  · split at ha
    · exact absurd ha (by simp)
    · split at ha
      · exact absurd ha (by simp)
      · cases ha
        exact ⟨by assumption, fun p hp => propsToAllocation_mem _ _ _ p hp⟩

/-- `_greedy_balanced_allocation` returns only nonempty allocations whose
    lots all meet the floor and the availability ceiling. -/
theorem greedyBalancedAllocation_some (lots : List LotData) (targetKg dcTarget : ℚ)
    (a : List (LotData × ℚ))
    (ha : greedyBalancedAllocation lots targetKg dcTarget = some a) :
    a ≠ [] ∧ ∀ p ∈ a, MIN_LOT_USAGE_KG ≤ p.2 ∧ p.2 ≤ p.1.qty_available * (95/100) := by
  simp only [greedyBalancedAllocation] at ha
  split at ha
  · exact absurd ha (by simp)
  · split at ha
    · exact absurd ha (by simp)
    · cases ha
      exact ⟨by assumption,
        fun p hp => greedyBalancedGo_mem _ _ _ _ (by simp) p hp⟩

/-- The best-of-three selector keeps either the incoming state or the offered
    allocation. -/
theorem considerStrategy_pick (dcTarget : ℚ)
    (state : Option (List (LotData × ℚ)) × ℚ)
    (o : Option (List (LotData × ℚ))) :
    (considerStrategy dcTarget state o).1 = state.1 ∨
    (considerStrategy dcTarget state o).1 = o := by
  rcases o with _ | alloc
  · exact Or.inl rfl
  · simp only [considerStrategy]
    split
    · split
      · exact Or.inr rfl
      · exact Or.inl rfl
    · exact Or.inl rfl

/-- Every allocation `_calculate_optimal_allocation` returns is nonempty and
    its lots all meet the 10 kg floor and the 95% availability ceiling. -/
theorem calculateOptimalAllocation_some (lots : List LotData) (targetKg : ℚ)
    (req : Requirements) (a : List (LotData × ℚ))
    (ha : calculateOptimalAllocation lots targetKg req = some a) :
    a ≠ [] ∧ ∀ p ∈ a, MIN_LOT_USAGE_KG ≤ p.2 ∧ p.2 ≤ p.1.qty_available * (95/100) := by
  simp only [calculateOptimalAllocation] at ha
  split at ha
  · exact absurd ha (by simp)
  · split at ha
    · exact ⟨(simpleAllocation_some _ _ _ ha).1, (simpleAllocation_some _ _ _ ha).2⟩
    · next dcTarget _ =>
      split at ha
      · exact absurd ha (by simp)
      · split at ha
        · refine ⟨uniformAllocation_some _ _ _ ha, fun p hp => ?_⟩
          simp only [uniformAllocation] at ha
          split at ha
          · exact absurd ha (by simp)
          · split at ha
            · exact absurd ha (by simp)
            · cases ha
              obtain ⟨l, hl, hf⟩ := List.mem_filterMap.mp hp
              split at hf
              · cases hf
                exact ⟨by assumption, qmin_le_right _ _⟩
              · cases hf
        · split at ha
          · exact ⟨(simpleAllocation_some _ _ _ ha).1, (simpleAllocation_some _ _ _ ha).2⟩
          · have h0 := considerStrategy_pick dcTarget
              (considerStrategy dcTarget
                (considerStrategy dcTarget (none, 999)
                  (allocateWithStrategy (lots.filter (fun l => l.dc_real ≠ none)) targetKg dcTarget 0))
                (allocateWithStrategy (lots.filter (fun l => l.dc_real ≠ none)) targetKg dcTarget 1))
              (allocateWithStrategy (lots.filter (fun l => l.dc_real ≠ none)) targetKg dcTarget 2)
            have h1 := considerStrategy_pick dcTarget
              (considerStrategy dcTarget (none, 999)
                (allocateWithStrategy (lots.filter (fun l => l.dc_real ≠ none)) targetKg dcTarget 0))
              (allocateWithStrategy (lots.filter (fun l => l.dc_real ≠ none)) targetKg dcTarget 1)
            have h2 := considerStrategy_pick dcTarget (none, 999)
              (allocateWithStrategy (lots.filter (fun l => l.dc_real ≠ none)) targetKg dcTarget 0)
            simp only [List.map, List.foldl] at ha
            rcases h0 with h0 | h0
            · rcases h1 with h1 | h1
              · rcases h2 with h2 | h2
                · rw [h0, h1, h2] at ha
                  exact absurd ha (by simp)
                · rw [h0, h1, h2] at ha
                  have := balancedAllocation_some _ _ _ _ ha
                  exact this
              · rw [h0, h1] at ha
                have := weightedAllocationV2_some _ _ _ _ ha
                exact this
            · rw [h0] at ha
              have := greedyBalancedAllocation_some _ _ _ _ ha
              exact this

end BlendOpt

namespace BlendOpt

/-- The `_greedy_combination` loop only ever appends lots whose chunk meets
    the 10 kg floor and stays at or below 90% of the lot's availability. -/
theorem greedyComboGo_extra (start : LotData) (dcTargetOpt : Option ℚ)
    (targetKg : ℚ) (maxLots : ℕ) (cands : List LotData)
    (combo : List (LotData × ℚ)) (currentKg currentDcSum : ℚ) :
    ∃ extra, greedyComboGo start dcTargetOpt targetKg maxLots cands combo
        currentKg currentDcSum = combo ++ extra ∧
      ∀ p ∈ extra, MIN_LOT_USAGE_KG ≤ p.2 ∧ p.2 ≤ p.1.qty_available * (9/10) := by
  induction cands generalizing combo currentKg currentDcSum with
  | nil => exact ⟨[], by simp [greedyComboGo]⟩
  | cons lot rest ih =>
    simp only [greedyComboGo]
    split
    · exact ih _ _ _
    · split
      · exact ⟨[], by simp⟩
      · split
        · exact ⟨[], by simp⟩
        · split
          · exact ih _ _ _
          · split
            · split
              · split
                · obtain ⟨extra, he, hb⟩ := ih (combo ++ [(lot,
                    qmin (targetKg - currentKg)
                      (qmin (lot.qty_available * (9/10)) (targetKg * (3/10))))])
                    (currentKg + qmin (targetKg - currentKg)
                      (qmin (lot.qty_available * (9/10)) (targetKg * (3/10))))
                    (currentDcSum + lot.dc_real.getD 0 * qmin (targetKg - currentKg)
                      (qmin (lot.qty_available * (9/10)) (targetKg * (3/10))))
                  refine ⟨(lot, qmin (targetKg - currentKg)
                      (qmin (lot.qty_available * (9/10)) (targetKg * (3/10)))) :: extra,
                    by simp [he], ?_⟩
                  intro q hq
                  rcases List.mem_cons.mp hq with rfl | hq
                  · exact ⟨le_of_not_lt (by assumption),
                      le_trans (qmin_le_right _ _) (qmin_le_left _ _)⟩
                  · exact hb q hq
                · exact ih _ _ _
              · split
                · obtain ⟨extra, he, hb⟩ := ih (combo ++ [(lot,
                    qmin (targetKg - currentKg)
                      (qmin (lot.qty_available * (9/10)) (targetKg * (3/10))))])
                    (currentKg + qmin (targetKg - currentKg)
                      (qmin (lot.qty_available * (9/10)) (targetKg * (3/10))))
                    (currentDcSum + lot.dc_real.getD 0 * qmin (targetKg - currentKg)
                      (qmin (lot.qty_available * (9/10)) (targetKg * (3/10))))
                  refine ⟨(lot, qmin (targetKg - currentKg)
                      (qmin (lot.qty_available * (9/10)) (targetKg * (3/10)))) :: extra,
                    by simp [he], ?_⟩
                  intro q hq
                  rcases List.mem_cons.mp hq with rfl | hq
                  · exact ⟨le_of_not_lt (by assumption),
                      le_trans (qmin_le_right _ _) (qmin_le_left _ _)⟩
                  · exact hb q hq
                · exact ih _ _ _
            · obtain ⟨extra, he, hb⟩ := ih (combo ++ [(lot,
                qmin (targetKg - currentKg)
                  (qmin (lot.qty_available * (9/10)) (targetKg * (3/10))))])
                (currentKg + qmin (targetKg - currentKg)
                  (qmin (lot.qty_available * (9/10)) (targetKg * (3/10))))
                (currentDcSum + (if truthy lot.dc_real then
                  lot.dc_real.getD 0 * qmin (targetKg - currentKg)
                    (qmin (lot.qty_available * (9/10)) (targetKg * (3/10))) else 0))
              refine ⟨(lot, qmin (targetKg - currentKg)
                  (qmin (lot.qty_available * (9/10)) (targetKg * (3/10)))) :: extra,
                by simp [he], ?_⟩
              intro q hq
              rcases List.mem_cons.mp hq with rfl | hq
              · exact ⟨le_of_not_lt (by assumption),
                  le_trans (qmin_le_right _ _) (qmin_le_left _ _)⟩
              · exact hb q hq

/-- What `_greedy_combination` guarantees when it returns: at least two lots,
    the seed `min(0.3·target, 0.9·availability)` of the start lot in front
    (with no floor check), and floor and 90%-availability bounds for every
    later lot. -/
theorem greedyCombination_some (start : LotData) (cands : List LotData)
    (targetKg : ℚ) (req : Requirements) (maxLots : ℕ)
    (combo : List (LotData × ℚ))
    (h : greedyCombination start cands targetKg req maxLots = some combo) :
    2 ≤ combo.length ∧
    combo.head? = some (start, qmin (targetKg * (3/10)) (start.qty_available * (9/10))) ∧
    ∀ p ∈ combo.tail, MIN_LOT_USAGE_KG ≤ p.2 ∧ p.2 ≤ p.1.qty_available * (9/10) := by
  simp only [greedyCombination] at h
  obtain ⟨extra, he, hb⟩ := greedyComboGo_extra start req.dc_target targetKg maxLots
    cands [(start, qmin (targetKg * (3/10)) (start.qty_available * (9/10)))]
    (qmin (targetKg * (3/10)) (start.qty_available * (9/10)))
    (if truthy start.dc_real then
      start.dc_real.getD 0 * qmin (targetKg * (3/10)) (start.qty_available * (9/10))
     else 0)
  rw [he] at h
  split at h
  · cases h
    exact ⟨by assumption, rfl, hb⟩
  · exact absurd h (by simp)

end BlendOpt

namespace BlendOpt

set_option maxRecDepth 1000000
set_option maxHeartbeats 1000000

/-- C2 (amended): every lot of every allocation returned by
    `_calculate_optimal_allocation` gets at least the 10 kg floor and at most
    95% of its availability; in a greedy combination the bounds hold for
    every lot after the seed (with the tighter 90% ceiling), while the seed
    itself is exactly `min(0.3·target, 0.9·availability)` of the start lot
    and is not floor-checked. -/
theorem C2_lot_bounds :
    (∀ lots targetKg req a, calculateOptimalAllocation lots targetKg req = some a →
      ∀ p ∈ a, MIN_LOT_USAGE_KG ≤ p.2 ∧ p.2 ≤ p.1.qty_available * (95/100)) ∧
    (∀ start cands targetKg req maxLots combo,
      greedyCombination start cands targetKg req maxLots = some combo →
      combo.head? = some (start, qmin (targetKg * (3/10)) (start.qty_available * (9/10))) ∧
      ∀ p ∈ combo.tail, MIN_LOT_USAGE_KG ≤ p.2 ∧ p.2 ≤ p.1.qty_available * (9/10)) :=
  ⟨fun lots targetKg req a ha => (calculateOptimalAllocation_some lots targetKg req a ha).2,
   fun start cands targetKg req maxLots combo h =>
     ⟨(greedyCombination_some start cands targetKg req maxLots combo h).2.1,
      (greedyCombination_some start cands targetKg req maxLots combo h).2.2⟩⟩

/-- Counterexample to C2 as stated: the greedy seed is not floor-checked, so
    a start lot with 11 kg available enters the returned combination with
    only 9.9 kg, below the 10 kg minimum. -/
theorem C2_counterexample :
    greedyCombination cStart [cStart, cOther] 100 cReq 10 = some cCombo ∧
    cCombo.map (fun p => p.2) = [99/10, 30] ∧
    ¬ (MIN_LOT_USAGE_KG ≤ (99/10 : ℚ)) := by
  decide

/-- Witness for C2: the bounds at scenario C's greedy combination and at
    scenario A's simple allocation. -/
theorem C2_lot_bounds_witness :
    (cCombo.head? = some (cStart, qmin ((100 : ℚ) * (3/10)) (cStart.qty_available * (9/10))) ∧
     ∀ p ∈ cCombo.tail, MIN_LOT_USAGE_KG ≤ p.2 ∧ p.2 ≤ p.1.qty_available * (9/10)) ∧
    (∀ p ∈ ([(aLot1, (120 : ℚ))] : List (LotData × ℚ)),
      MIN_LOT_USAGE_KG ≤ p.2 ∧ p.2 ≤ p.1.qty_available * (95/100)) :=
  ⟨C2_lot_bounds.2 cStart [cStart, cOther] 100 cReq 10 cCombo (by decide),
   C2_lot_bounds.1 [aLot1, aLot2] 100 aReq [(aLot1, 120)] (by decide)⟩

/-- C10 (amended): greedy-seeded combinations do hold at least two lots, but
    combinations from the fixed-size subset enumeration are only guaranteed
    nonempty — the allocator may drop all but one lot of a subset. -/
theorem C10_lot_counts :
    (∀ start cands targetKg req maxLots combo,
      greedyCombination start cands targetKg req maxLots = some combo →
      2 ≤ combo.length) ∧
    (∀ lots targetKg req a, calculateOptimalAllocation lots targetKg req = some a →
      a ≠ []) :=
  ⟨fun start cands targetKg req maxLots combo h =>
     (greedyCombination_some start cands targetKg req maxLots combo h).1,
   fun lots targetKg req a ha => (calculateOptimalAllocation_some lots targetKg req a ha).1⟩

/-- Counterexample to C10 as stated: scenario A's run of `optimize` returns
    exactly one solution and it contains a single lot. -/
theorem C10_counterexample :
    (optimize aInv aReq 10 false aInv aInv).map (fun s => s.lots.length) = [1] := by
  decide

/-- Witness for C10: the greedy combination of scenario C has two lots and
    the simple allocation of scenario A is nonempty. -/
theorem C10_lot_counts_witness :
    2 ≤ cCombo.length ∧ ([(aLot1, (120 : ℚ))] : List (LotData × ℚ)) ≠ [] :=
  ⟨C10_lot_counts.1 cStart [cStart, cOther] 100 cReq 10 cCombo (by decide),
   C10_lot_counts.2 [aLot1, aLot2] 100 aReq [(aLot1, 120)] (by decide)⟩

end BlendOpt

namespace BlendOpt

set_option maxRecDepth 1000000
set_option maxHeartbeats 1000000

/-- `_evaluate_combination` keeps the combination as the solution's lots. -/
theorem evaluateCombination_lots (c : List (LotData × ℚ)) (req : Requirements) :
    (evaluateCombination c req).lots = c := rfl

/-- `_evaluate_combination` records the combination's total mass. -/
theorem evaluateCombination_total (c : List (LotData × ℚ)) (req : Requirements) :
    (evaluateCombination c req).total_kg = sumKg c := rfl

/-- `_evaluate_combination` records the requirements unchanged. -/
theorem evaluateCombination_req (c : List (LotData × ℚ)) (req : Requirements) :
    (evaluateCombination c req).requirements = req := rfl

/-- A valid solution carries at least 90% of the requested quantity. -/
theorem isValidSolution_total (s : BlendSolution) (h : s.isValidSolution = true) :
    (s.requirements.quantity_kg.getD 100) * (9/10) ≤ s.total_kg := by
  simp only [BlendSolution.isValidSolution, Bool.and_eq_true, decide_eq_true_eq,
    ge_iff_le] at h
  exact h.1.2

/-- A combination passing `_quick_validate_combination` has total mass within
    ±30% of the requested quantity. -/
theorem quickValidate_bounds (c : List (LotData × ℚ)) (req : Requirements)
    (h : quickValidateCombination c req = true) :
    (req.quantity_kg.getD 100) * (7/10) ≤ sumKg c ∧
    sumKg c ≤ (req.quantity_kg.getD 100) * (13/10) := by
  simp only [quickValidateCombination] at h
  split at h
  · exact absurd h (by simp)
  · split at h
    · exact absurd h (by simp)
    · next hout =>
      push_neg at hout
      exact ⟨le_of_not_lt (fun hlt => absurd hlt (not_lt.mpr hout.1).elim), hout.2⟩

/-- Every solution the scoring loop emits beyond its accumulator comes from a
    combination that passed quick validation and was judged valid. -/
theorem optimizeLoop_mem (req : Requirements) (earlyStop : ℕ)
    (combos : List (List (LotData × ℚ))) (sols : List BlendSolution)
    (s : BlendSolution) (h : s ∈ optimizeLoop req earlyStop combos sols) :
    s ∈ sols ∨ ∃ c, c ∈ combos ∧ quickValidateCombination c req = true ∧
      s = evaluateCombination c req ∧ s.isValidSolution = true := by
  induction combos generalizing sols with
  | nil => exact Or.inl (by simpa [optimizeLoop] using h)
  | cons c rest ih =>
    simp only [optimizeLoop] at h
    split at h
    · rcases ih _ h with hs | ⟨d, hd, hq, he, hv⟩
      · exact Or.inl hs
      · exact Or.inr ⟨d, List.mem_cons_of_mem _ hd, hq, he, hv⟩
    · next hqv =>
      rw [not_not] at hqv
      split at h
      · next hvalid =>
        split at h
        · rcases List.mem_append.mp h with hs | hs
          · exact Or.inl hs
          · rcases List.mem_singleton.mp hs with rfl
            exact Or.inr ⟨c, List.mem_cons_self _ _, hqv, rfl, hvalid⟩
        · rcases ih _ h with hs | ⟨d, hd, hq, he, hv⟩
          · rcases List.mem_append.mp hs with hs2 | hs2
            · exact Or.inl hs2
            · rcases List.mem_singleton.mp hs2 with rfl
              exact Or.inr ⟨c, List.mem_cons_self _ _, hqv, rfl, hvalid⟩
          · exact Or.inr ⟨d, List.mem_cons_of_mem _ hd, hq, he, hv⟩
      · rcases ih _ h with hs | ⟨d, hd, hq, he, hv⟩
        · exact Or.inl hs
        · exact Or.inr ⟨d, List.mem_cons_of_mem _ hd, hq, he, hv⟩

end BlendOpt

namespace BlendOpt

set_option maxRecDepth 1000000
set_option maxHeartbeats 4000000

/-- C1 (amended): every solution `optimize` returns carries between 90% and
    130% of the requested quantity — the lower bound from `is_valid`, the
    upper bound from `_quick_validate_combination`'s ±30% window.  The
    spec's 110% upper bound does not hold (see the counterexample). -/
theorem C1_total_mass (inv : List LotData) (req : Requirements)
    (numSolutions : ℕ) (allowEstimated : Bool) (shuffle1 shuffle2 : List LotData)
    (s : BlendSolution)
    (h : s ∈ optimize inv req numSolutions allowEstimated shuffle1 shuffle2) :
    (req.quantity_kg.getD 100) * (9/10) ≤ s.total_kg ∧
    s.total_kg ≤ (req.quantity_kg.getD 100) * (13/10) := by
  simp only [optimize] at h
  split at h
  · simp at h
  · split at h
    · simp at h
    · have h2 := List.take_subset _ _ h
      rw [mem_stableSort] at h2
      rcases optimizeLoop_mem _ _ _ _ _ h2 with hs | ⟨c, _, hqv, rfl, hvalid⟩
      · simp at hs
      · have hv := isValidSolution_total _ hvalid
        rw [evaluateCombination_req] at hv
        rw [evaluateCombination_total] at hv ⊢
        exact ⟨hv, (quickValidate_bounds c req hqv).2⟩

/-- Counterexample to C1 as stated: in scenario A `optimize` returns a
    solution of 120 kg for a requested 100 kg — 120% of the quantity,
    outside the claimed ±10% window. -/
theorem C1_counterexample :
    (optimize aInv aReq 10 false aInv aInv).map (fun s => s.total_kg) = [120] ∧
    aReq.quantity_kg = some 100 ∧
    ¬ ((120 : ℚ) ≤ 100 * (11/10)) := by
  decide

/-- Witness for C1: the mass bounds at scenario A's returned solution. -/
theorem C1_total_mass_witness :
    (aReq.quantity_kg.getD 100) * (9/10) ≤ (evaluateCombination aCombo aReq).total_kg ∧
    (evaluateCombination aCombo aReq).total_kg ≤ (aReq.quantity_kg.getD 100) * (13/10) :=
  C1_total_mass aInv aReq 10 false aInv aInv (evaluateCombination aCombo aReq) (by decide)

end BlendOpt

namespace BlendOpt

set_option maxRecDepth 1000000
set_option maxHeartbeats 10000000

/-- C5 (amended): `optimize` is a pure function of the inventory, the
    requirements, `num_solutions`, `allow_estimated` and the two
    `random.shuffle` outcomes of the diversification step — calls agreeing
    on all six inputs return identical solution lists.  The source exposes
    no seed parameter: the shuffles are drawn from Python's global
    generator, and different shuffle outcomes can change the result (see the
    counterexample). -/
theorem C5_deterministic_given_shuffles (inv : List LotData) (req : Requirements)
    (numSolutions : ℕ) (allowEstimated : Bool)
    (shuffle1 shuffle2 shuffle1' shuffle2' : List LotData)
    (h1 : shuffle1 = shuffle1') (h2 : shuffle2 = shuffle2') :
    optimize inv req numSolutions allowEstimated shuffle1 shuffle2 =
    optimize inv req numSolutions allowEstimated shuffle1' shuffle2' := by
  rw [h1, h2]

/-- Witness for C5: determinism at scenario B's inputs. -/
theorem C5_deterministic_witness :
    optimize bInv bReq 10 false bInv bInv = optimize bInv bReq 10 false bInv bInv :=
  C5_deterministic_given_shuffles bInv bReq 10 false bInv bInv bInv bInv rfl rfl

/-- Counterexample to C5 as stated: with identical inventory, requirements,
    `num_solutions` and `allow_estimated`, merely permuting the first
    shuffle outcome — a reordering `random.shuffle` can produce, since the
    shuffled list is a permutation of the candidates — changes the number of
    returned solutions from 2 to 3, and no seed parameter exists to pin it
    down. -/
theorem C5_counterexample :
    bShuffled.Perm (filterCandidates bInv bReq false) ∧
    filterCandidates bInv bReq false = bInv ∧
    (optimize bInv bReq 10 false bInv bInv).length = 2 ∧
    (optimize bInv bReq 10 false bShuffled bInv).length = 3 ∧
    optimize bInv bReq 10 false bInv bInv ≠ optimize bInv bReq 10 false bShuffled bInv := by
  decide

end BlendOpt
